import Mathlib

/-! # Media manager: a shallow embedding of `src/Backend/index.js` and of the list
operations of `src/media-manager/src/components/MediaManager.jsx`

JavaScript strings are sequences of UTF-16 code units; a code unit is a natural
number and a string is a list of them, so that `length`, `trim`, `split` and
`includes` count and compare exactly what the source counts and compares.
-/

namespace MediaManager

/-- One UTF-16 code unit. -/
abbrev CodeUnit := Nat

/-- A JavaScript string value. -/
abbrev Str := List CodeUnit

/-- The string value of a source literal (all literals of the source are ASCII). -/
def lit (s : String) : Str := s.toList.map Char.toNat

/-- The line feed, the separator of `text.split('\n')`. -/
def NL : CodeUnit := 10

/-- ECMAScript `WhiteSpace` and `LineTerminator` code units: what `trim` removes and
what `\s` matches in a regular expression. -/
def isSpace (c : CodeUnit) : Bool :=
  c == 9 || c == 10 || c == 11 || c == 12 || c == 13 || c == 32 || c == 160 ||
  c == 5760 || (8192 ≤ c && c ≤ 8202) || c == 8232 || c == 8233 || c == 8239 ||
  c == 8287 || c == 12288 || c == 65279

/-- The class `\d` of a regular expression: the ASCII digits. -/
def isDigit (c : CodeUnit) : Bool := 48 ≤ c && c ≤ 57

/-- The number written by a string of decimal digits. -/
def digitsVal (k : Str) : Nat := k.foldl (fun n c => 10 * n + (c - 48)) 0

/-- `String.prototype.trimStart`. -/
def trimStart (s : Str) : Str := s.dropWhile isSpace

/-- `String.prototype.trimEnd`. -/
def trimEnd (s : Str) : Str := (s.reverse.dropWhile isSpace).reverse

/-- `String.prototype.trim`. -/
def trim (s : Str) : Str := trimEnd (trimStart s)

/-- `s.includes(p)`: does `p` occur in `s` as a contiguous run. -/
def includes : Str → Str → Bool
  | [], p => p.isEmpty
  | c :: cs, p => p.isPrefixOf (c :: cs) || includes cs p

/-- `s.split(sep)` for a non-empty separator `sep`, scanning left to right for the
next occurrence of `sep`; the first argument counts the code units of a matched
separator that are still to be skipped. -/
def splitFrom (sep : Str) : Nat → Str → List Str
  | _, [] => [[]]
  | k + 1, _ :: cs => splitFrom sep k cs
  | 0, c :: cs =>
    if sep.isPrefixOf (c :: cs) then [] :: splitFrom sep (sep.length - 1) cs
    else match splitFrom sep 0 cs with
      | [] => [[c]]
      | p :: ps => (c :: p) :: ps

/-- `s.split(sep)` for a non-empty separator string. -/
def split (s sep : Str) : List Str := splitFrom sep 0 s

/-- Join strings with a separator, `Array.prototype.join`. -/
def joinWith (sep : Str) : List Str → Str
  | [] => []
  | [s] => s
  | s :: t :: rest => s ++ sep ++ joinWith sep (t :: rest)

/-- A JavaScript number: a finite binary64 value `m * 2 ^ e`, an infinity, or NaN. -/
inductive JSNum where
  | nan
  | inf (negative : Bool)
  | fin (m : Int) (e : Int)
  deriving DecidableEq, Repr

namespace JSNum

/-- The number of an integer literal of the source. -/
def ofInt (n : Int) : JSNum := fin n 0

/-- The relational operator `a < b` on numbers; false whenever an operand is NaN. -/
def lt : JSNum → JSNum → Bool
  | nan, _ => false
  | _, nan => false
  | inf true, inf true => false
  | inf true, _ => true
  | _, inf true => false
  | inf false, _ => false
  | _, inf false => true
  | fin m e, fin n f =>
    let k := min e f
    decide (m * 2 ^ (e - k).toNat < n * 2 ^ (f - k).toNat)

/-- The relational operator `a > b`. -/
def gt (a b : JSNum) : Bool := lt b a

end JSNum

/-- A field of a parsed JSON request body as the handlers read it: a JSON scalar, or
`undefined` when the body has no such field. -/
inductive JSVal where
  | undefined
  | null
  | bool (b : Bool)
  | num (x : JSNum)
  | str (s : Str)
  deriving DecidableEq, Repr

/-- The built-in functions of the language that the source calls and does not define. -/
structure Host where
  /-- `Number::toString`, the text of a number in a template literal. -/
  numToStr : JSNum → Str
  /-- The global `parseFloat` on a string argument. -/
  parseFloatStr : Str → JSNum
  /-- `String.prototype.toLowerCase`. -/
  toLowerCase : Str → Str

/-- The abstract operation `ToString`, applied by template literals, by `parseFloat`
and by property lookup to a non-string operand. -/
def JSVal.toStr (h : Host) : JSVal → Str
  | .undefined => lit "undefined"
  | .null => lit "null"
  | .bool true => lit "true"
  | .bool false => lit "false"
  | .num x => h.numToStr x
  | .str s => s

/-- The global `parseFloat(v)`: the argument is converted to a string first. -/
def parseFloat (h : Host) (v : JSVal) : JSNum := h.parseFloatStr (v.toStr h)

/-- Source `generateFallbackInsight` (index.js, lines 167-172). -/
def generateFallbackInsight (h : Host) (completionRate totalItems favoriteGenre : JSVal) : Str :=
  let rate := parseFloat h completionRate
  if rate.gt (JSNum.ofInt 80) then
    lit "Great job! You've completed " ++ completionRate.toStr h ++
      lit "% of your collection. Your " ++ favoriteGenre.toStr h ++
      lit " taste is showing strong dedication!"
  else if rate.lt (JSNum.ofInt 30) then
    lit "You have a growing collection of " ++ totalItems.toStr h ++
      lit " items! Consider focusing on completing some " ++ favoriteGenre.toStr h ++
      lit " titles first."
  else
    lit "Your " ++ favoriteGenre.toStr h ++ lit " collection is well-balanced with " ++
      totalItems.toStr h ++ lit " items. Keep exploring new titles!"

/-! ### A reference host

The three built-ins of `Host`, written out for evaluating the functions on concrete
inputs. -/

/-- `toLowerCase` on the ASCII letters; other code units are kept. -/
def asciiLower (s : Str) : Str := s.map fun c => if 65 ≤ c && c ≤ 90 then c + 32 else c

/-- The decimal digits of a natural number, most significant first. -/
def natDigitsAux : Nat → Nat → Str → Str
  | 0, _, acc => acc
  | fuel + 1, n, acc =>
    if n < 10 then (48 + n) :: acc else natDigitsAux fuel (n / 10) ((48 + n % 10) :: acc)

/-- The decimal numeral of a natural number. -/
def natDigits (n : Nat) : Str := natDigitsAux (n + 1) n []

/-- The exact decimal expansion of a number, which is the text `Number::toString` gives
for the integers and short binary fractions used here. -/
def exactNumToStr : JSNum → Str
  | .nan => lit "NaN"
  | .inf false => lit "Infinity"
  | .inf true => lit "-Infinity"
  | .fin m e =>
    let sign : Str := if m < 0 then lit "-" else []
    if 0 ≤ e then sign ++ natDigits (m.natAbs * 2 ^ e.toNat)
    else
      let k := (-e).toNat
      let n := m.natAbs * 5 ^ k
      let frac := natDigits (n % 10 ^ k)
      let padded := List.replicate (k - frac.length) 48 ++ frac
      let shown := (padded.reverse.dropWhile (· == 48)).reverse
      if shown.isEmpty then sign ++ natDigits (n / 10 ^ k)
      else sign ++ natDigits (n / 10 ^ k) ++ lit "." ++ shown

/-- The binary logarithm, rounded down, by repeated halving. -/
def log2Aux : Nat → Nat → Nat
  | 0, _ => 0
  | fuel + 1, n => if n < 2 then 0 else log2Aux fuel (n / 2) + 1

/-- Round the rational `p / q` to the nearest binary64 value, ties to even. -/
def roundBinary64 (negative : Bool) (p q : Nat) : JSNum :=
  if p = 0 ∨ q = 0 then .fin 0 0 else
  let e0 : Int := (log2Aux p p : Int) - (log2Aux q q : Int) - 53
  let scaled (e : Int) : Nat × Nat := if 0 ≤ e then (p, q * 2 ^ e.toNat) else (p * 2 ^ (-e).toNat, q)
  let n0 := (scaled e0).1 / (scaled e0).2
  let e := max (if 2 ^ 53 ≤ n0 then e0 + 1 else e0) (-1074)
  let a := (scaled e).1
  let b := (scaled e).2
  let m := if b < 2 * (a % b) ∨ (b = 2 * (a % b) ∧ (a / b) % 2 = 1) then a / b + 1 else a / b
  if 971 < e ∨ (e = 971 ∧ 2 ^ 53 ≤ m) then .inf negative
  else .fin (if negative then -(m : Int) else m) e

/-- The global `parseFloat` on a string: leading white space, an optional sign, then
`Infinity` or the longest decimal literal; `NaN` when there is none. -/
def decimalParseFloat (s : Str) : JSNum :=
  let s0 := trimStart s
  let negative := s0.head? == some 45
  let s1 := if s0.head? == some 45 || s0.head? == some 43 then s0.tail else s0
  if (lit "Infinity").isPrefixOf s1 then .inf negative else
  let intPart := (s1.span isDigit).1
  let r1 := (s1.span isDigit).2
  let fracPart := if r1.head? == some 46 then (r1.tail.span isDigit).1 else []
  let r2 := if r1.head? == some 46 then (r1.tail.span isDigit).2 else r1
  if intPart.isEmpty && fracPart.isEmpty then .nan else
  let r3 := if r2.head? == some 101 || r2.head? == some 69 then r2.tail else []
  let expNegative := r3.head? == some 45
  let r4 := if r3.head? == some 45 || r3.head? == some 43 then r3.tail else r3
  let expDigits := (r4.span isDigit).1
  let exp10 : Int := (if expNegative then -(digitsVal expDigits : Int) else digitsVal expDigits) -
    fracPart.length
  let n := digitsVal (intPart ++ fracPart)
  if 0 ≤ exp10 then roundBinary64 negative (n * 10 ^ exp10.toNat) 1
  else roundBinary64 negative n (10 ^ (-exp10).toNat)

/-- The reference host. -/
def refHost : Host :=
  { numToStr := exactNumToStr, parseFloatStr := decimalParseFloat, toLowerCase := asciiLower }

/-- One recommendation, `{title, reason}`. -/
structure RecItem where
  title : Str
  reason : Str
  deriving DecidableEq, Repr

/-- The own keys of the table of `generateFallbackRecommendations` with their rows, each
row listing its own keys `movie`, `game`, `book` with their titles. -/
def recommendationTable : List (Str × List (Str × List Str)) :=
  [ (lit "Sci-Fi",
      [ (lit "movie", [lit "Arrival", lit "Ex Machina", lit "Minority Report"]),
        (lit "game", [lit "Deus Ex", lit "Mass Effect", lit "Bioshock"]),
        (lit "book", [lit "Foundation", lit "Neuromancer", lit "The Martian"]) ]),
    (lit "Fantasy",
      [ (lit "movie", [lit "Lord of the Rings", lit "Pan's Labyrinth", lit "The Shape of Water"]),
        (lit "game", [lit "Skyrim", lit "Dragon Age", lit "The Witcher 2"]),
        (lit "book", [lit "Game of Thrones", lit "Name of the Wind", lit "Mistborn"]) ]),
    (lit "Action",
      [ (lit "movie", [lit "John Wick", lit "Mad Max: Fury Road", lit "The Raid"]),
        (lit "game", [lit "God of War", lit "Uncharted", lit "Doom"]),
        (lit "book", [lit "Jack Reacher", lit "The Bourne Identity",
          lit "The Girl with the Dragon Tattoo"]) ]) ]

/-- The property names every object literal inherits from `Object.prototype`; the value
found under each of them is a function or an object, hence truthy, and is not an array. -/
def objectPrototypeKeys : List Str :=
  [ lit "constructor", lit "__defineGetter__", lit "__defineSetter__", lit "hasOwnProperty",
    lit "__lookupGetter__", lit "__lookupSetter__", lit "isPrototypeOf",
    lit "propertyIsEnumerable", lit "toString", lit "valueOf", lit "__proto__",
    lit "toLocaleString" ]

/-- What `obj[key]` finds on an object literal: an own property, a property inherited
from `Object.prototype`, or nothing (`undefined`). -/
inductive Lookup (α : Type) where
  | own (a : α)
  | inherited
  | missing
  deriving DecidableEq, Repr

/-- Property lookup `obj[key]` on an object literal with the given own properties. -/
def getProp {α : Type} (obj : List (Str × α)) (key : Str) : Lookup α :=
  match obj.lookup key with
  | some a => .own a
  | none => if objectPrototypeKeys.contains key then .inherited else .missing

/-- The exception a handler or helper throws. -/
inductive JSError where
  | typeError
  | apiRequestFailed (status : Nat)
  | networkError
  | invalidJson
  deriving DecidableEq, Repr

/-- Equality of results is decidable when equality of errors and of values is. -/
instance instDecidableEqExcept {ε α : Type} [DecidableEq ε] [DecidableEq α] :
    DecidableEq (Except ε α)
  | .ok a, .ok b => if h : a = b then isTrue (by rw [h]) else isFalse (fun e => h (by cases e; rfl))
  | .error a, .error b =>
    if h : a = b then isTrue (by rw [h]) else isFalse (fun e => h (by cases e; rfl))
  | .ok _, .error _ => isFalse (fun e => by cases e)
  | .error _, .ok _ => isFalse (fun e => by cases e)

/-- Source `generateFallbackRecommendations` (index.js, lines 174-200). `a || b` takes
`a` when it is truthy, which an own row and an inherited property both are; calling
`.slice` on an inherited function or object, or on `undefined`, throws a `TypeError`. -/
def generateFallbackRecommendations (h : Host) (favoriteGenre favoriteType : JSVal) :
    Except JSError (List RecItem) :=
  let genreRecs : Lookup (List (Str × List Str)) :=
    match getProp recommendationTable (favoriteGenre.toStr h) with
    | .missing => getProp recommendationTable (lit "Sci-Fi")
    | found => found
  match genreRecs with
  | .own row =>
    let typeRecs : Lookup (List Str) :=
      match getProp row (favoriteType.toStr h) with
      | .missing => getProp row (lit "movie")
      | found => found
    match typeRecs with
    | .own titles =>
      .ok ((titles.take 3).map fun title =>
        { title := title
          reason := lit "Perfect for " ++ favoriteGenre.toStr h ++ lit " " ++
            favoriteType.toStr h ++ lit " fans" })
    | _ => .error .typeError
  | _ => .error .typeError

/-- The regular expression replacement `s.replace(/^\d+\.?\s*/, '')`: when `s` starts
with a digit, drop the leading digits, one following period if there is one, and the
white space after that; otherwise `s` is unchanged. -/
def stripOrdinal (s : Str) : Str :=
  match s.span isDigit with
  | ([], _) => s
  | (_, rest) =>
    match rest with
    | 46 :: rest' => rest'.dropWhile isSpace
    | _ => rest.dropWhile isSpace

/-- The body of the `for` loop of `parseRecommendations`: push an item when the line has
more than 5 code units. -/
def pushRecommendation (genre type : Str) (recommendations : List RecItem) (line : Str) :
    List RecItem :=
  if line.length > 5 then
    recommendations ++
      [{ title := stripOrdinal (trim line)
         reason := lit "Recommended based on your " ++ genre ++ lit " " ++ type ++
           lit " preferences" }]
  else recommendations

/-- Source `parseRecommendations` (index.js, lines 202-221) on a string `text`; `genre`
and `type` are the texts interpolated into the reason. -/
def parseRecommendations (text genre type : Str) : List RecItem :=
  let lines := (split text [NL]).filter fun line => !(trim line).isEmpty
  (lines.take 3).foldl (pushRecommendation genre type) []

/-- The object built by `parseMediaInfo`; a field that was never assigned is absent. -/
structure MediaInfo where
  creator : Option Str := none
  releaseDate : Option Str := none
  genre : Option Str := none
  type : Option Str := none
  deriving DecidableEq, Repr

/-- The expression `line.split(p)[1]?.trim()`. -/
def fieldAfter (line p : Str) : Option Str := ((split line p).get? 1).map trim

/-- The body of the `for` loop of `parseMediaInfo`: the `if`/`else if` chain on one line. -/
def parseMediaLine (h : Host) (info : MediaInfo) (line : Str) : MediaInfo :=
  if includes line (lit "Creator:") then
    { info with creator := fieldAfter line (lit "Creator:") }
  else if includes line (lit "Year:") then
    { info with releaseDate := fieldAfter line (lit "Year:") }
  else if includes line (lit "Genre:") then
    { info with genre := fieldAfter line (lit "Genre:") }
  else if includes line (lit "Type:") then
    { info with type := (fieldAfter line (lit "Type:")).map h.toLowerCase }
  else info

/-- Source `parseMediaInfo` (index.js, lines 223-240) on a string `text`. -/
def parseMediaInfo (h : Host) (text : Str) : MediaInfo :=
  (split text [NL]).foldl (parseMediaLine h) {}

/-- Is the property name an array index, a canonical decimal numeral below `2 ^ 32 - 1`:
such keys are enumerated before all others, in ascending numeric order. -/
def isArrayIndex (k : Str) : Bool :=
  !k.isEmpty && k.all isDigit && (k.length == 1 || k.head? != some 48) &&
    decide (digitsVal k < 4294967295)

/-- Insert an entry with an array-index key at its numeric position. -/
def insertIndexKey {α : Type} (e : Str × α) : List (Str × α) → List (Str × α)
  | [] => [e]
  | x :: xs => if digitsVal e.1 < digitsVal x.1 then e :: x :: xs else x :: insertIndexKey e xs

/-- The order of `Object.entries` on an object literal whose properties are written in
the given order: array-index keys ascending, then the other keys as written. -/
def objectEntries {α : Type} (props : List (Str × α)) : List (Str × α) :=
  (props.filter fun e => isArrayIndex e.1).foldr insertIndexKey [] ++
    props.filter fun e => !isArrayIndex e.1

/-- A catalog entry: all four fields are present. -/
def entry (creator releaseDate genre type : String) : MediaInfo :=
  { creator := some (lit creator), releaseDate := some (lit releaseDate),
    genre := some (lit genre), type := some (lit type) }

/-- Source `getMediaDatabase` (index.js, lines 51-72), the properties as written. -/
def getMediaDatabase : List (Str × List (Str × MediaInfo)) :=
  [ (lit "movies",
      [ (lit "the matrix", entry "The Wachowskis" "1999" "Sci-Fi" "movie"),
        (lit "inception", entry "Christopher Nolan" "2010" "Sci-Fi" "movie"),
        (lit "interstellar", entry "Christopher Nolan" "2014" "Sci-Fi" "movie"),
        (lit "blade runner", entry "Ridley Scott" "1982" "Sci-Fi" "movie"),
        (lit "the godfather", entry "Francis Ford Coppola" "1972" "Crime" "movie") ]),
    (lit "games",
      [ (lit "the witcher 3", entry "CD Projekt Red" "2015" "RPG" "game"),
        (lit "cyberpunk 2077", entry "CD Projekt Red" "2020" "RPG" "game"),
        (lit "red dead redemption 2", entry "Rockstar Games" "2018" "Action" "game"),
        (lit "the last of us", entry "Naughty Dog" "2013" "Action" "game") ]),
    (lit "books",
      [ (lit "dune", entry "Frank Herbert" "1965" "Sci-Fi" "book"),
        (lit "1984", entry "George Orwell" "1949" "Dystopian" "book"),
        (lit "the hobbit", entry "J.R.R. Tolkien" "1937" "Fantasy" "book") ]) ]

/-- The key and value pairs visited by the nested `for` loops of the auto-completion
handler (index.js, lines 137-138), in the order they are visited. -/
def catalogEntries : List (Str × MediaInfo) :=
  ((objectEntries getMediaDatabase).map fun category => objectEntries category.2).flatten

/-- The nested `for` loops of the auto-completion handler (index.js, lines 137-143): the
value of the first key, in enumeration order, that contains the lower-cased title or is
contained in it. -/
def lookupLocal (titleLower : Str) : Option MediaInfo :=
  (catalogEntries.find? fun kv => includes kv.1 titleLower || includes titleLower kv.1).map
    Prod.snd

/-- The outcome of the `fetch` of `callHuggingFaceAPI`: the promise rejects, or a
response arrives; `payload` is `none` when `response.json()` rejects or yields `null`,
and otherwise the value of `result[0]?.generated_text`. -/
inductive FetchResult where
  | networkError
  | response (ok : Bool) (status : Nat) (payload : Option JSVal)
  deriving DecidableEq, Repr

/-- Truthiness, as tested by `||`, `!` and `if`. -/
def JSVal.truthy : JSVal → Bool
  | .undefined => false
  | .null => false
  | .bool b => b
  | .num (.fin m _) => m != 0
  | .num .nan => false
  | .num (.inf _) => true
  | .str s => !s.isEmpty

/-- Source `callHuggingFaceAPI` (index.js, lines 19-48); `fetch` answers the request
made for a prompt and a token bound. -/
def callHuggingFaceAPI (fetch : Str → Nat → FetchResult) (prompt : Str) (maxTokens : Nat) :
    Except JSError JSVal :=
  match fetch prompt maxTokens with
  | .networkError => .error .networkError
  | .response ok status payload =>
    if !ok then .error (.apiRequestFailed status)
    else match payload with
      | none => .error .invalidJson
      | some v => .ok (if v.truthy then v else .str [])

/-- A method of `String.prototype` called on a value: a `TypeError` unless the value is
a string. -/
def JSVal.asString : JSVal → Except JSError Str
  | .str s => .ok s
  | _ => .error .typeError

/-- The JSON body of a response of the server. -/
inductive Body where
  | insights (error : Option Str) (recommendation : Str)
  | recommendations (error : Option Str) (recommendations : List RecItem)
  | media (info : MediaInfo)
  | message (message : Str)
  | error (error : Str)
  deriving DecidableEq, Repr

/-- A response: `res.json(body)` has status 200, `res.status(500).json(body)` status 500. -/
structure Response where
  status : Nat
  body : Body
  deriving DecidableEq, Repr

/-- One run of a handler: the response it sends, `none` when an exception leaves the
handler before it responds, and the outbound calls it issued (prompt and token bound). -/
structure Run where
  response : Option Response
  calls : List (Str × Nat)
  deriving DecidableEq, Repr

/-- The body of a request to `/api/generate-insights`, field by field. -/
structure InsightsRequest where
  mediaContext : JSVal
  totalItems : JSVal
  completionRate : JSVal
  avgRating : JSVal
  favoriteGenre : JSVal

/-- The prompt of the insights handler (index.js, lines 81-84). -/
def insightsPrompt (h : Host) (b : InsightsRequest) : Str :=
  lit "Analyze this media collection and provide a personalized insight:\nCollection: " ++
    b.mediaContext.toStr h ++ lit "\nStats: " ++ b.totalItems.toStr h ++ lit " items, " ++
    b.completionRate.toStr h ++ lit "% completed, " ++ b.avgRating.toStr h ++
    lit " avg rating, favorite genre: " ++ b.favoriteGenre.toStr h ++
    lit "\nProvide a brief, friendly recommendation or observation about this collection:"

/-- The `try` block of the insights handler (index.js, lines 79-94). -/
def insightsTry (h : Host) (fetch : Str → Nat → FetchResult) (b : InsightsRequest) :
    Except JSError Response := do
  let aiResponse ← callHuggingFaceAPI fetch (insightsPrompt h b) 80
  let recommendation := trim (← aiResponse.asString)
  let recommendation :=
    if recommendation.isEmpty || recommendation.length < 10 then
      generateFallbackInsight h b.completionRate b.totalItems b.favoriteGenre
    else recommendation
  return { status := 200, body := .insights none recommendation }

/-- The handler of `POST /api/generate-insights` (index.js, lines 77-102). -/
def generateInsights (h : Host) (fetch : Str → Nat → FetchResult) (b : InsightsRequest) : Run :=
  { response :=
      match insightsTry h fetch b with
      | .ok r => some r
      | .error _ =>
        some { status := 500
               body := .insights (some (lit "Failed to generate insights"))
                 (generateFallbackInsight h b.completionRate b.totalItems b.favoriteGenre) }
    calls := [(insightsPrompt h b, 80)] }

/-- The body of a request to `/api/generate-recommendations`; `topRatedItems` is `none`
when the field is not an array, so that `topRatedItems.join` throws. -/
structure RecommendationsRequest where
  favoriteGenre : JSVal
  favoriteType : JSVal
  topRatedItems : Option (List JSVal)

/-- The text of an array element inside `Array.prototype.join`: empty for `null` and
`undefined`. -/
def joinElement (h : Host) : JSVal → Str
  | .undefined => []
  | .null => []
  | v => v.toStr h

/-- The prompt of the recommendations handler (index.js, line 109). -/
def recommendationsPrompt (h : Host) (b : RecommendationsRequest) (items : List JSVal) : Str :=
  lit "Based on these preferences - Genre: " ++ b.favoriteGenre.toStr h ++ lit ", Type: " ++
    b.favoriteType.toStr h ++ lit ", Top items: " ++
    joinWith (lit ", ") (items.map (joinElement h)) ++
    lit " - recommend 3 similar titles with reasons:"

/-- The `try` block of the recommendations handler (index.js, lines 107-119); a response
that is not a string makes `text.split` throw inside `parseRecommendations`, whose own
`catch` then returns the empty list. -/
def recommendationsTry (h : Host) (fetch : Str → Nat → FetchResult)
    (b : RecommendationsRequest) : Except JSError Response := do
  let items ← match b.topRatedItems with
    | some items => pure items
    | none => throw JSError.typeError
  let aiResponse ← callHuggingFaceAPI fetch (recommendationsPrompt h b items) 120
  let parsed :=
    match aiResponse with
    | .str text => parseRecommendations text (b.favoriteGenre.toStr h) (b.favoriteType.toStr h)
    | _ => []
  let recommendations ←
    if parsed.length == 0 then generateFallbackRecommendations h b.favoriteGenre b.favoriteType
    else pure parsed
  return { status := 200, body := .recommendations none recommendations }

/-- The handler of `POST /api/generate-recommendations` (index.js, lines 105-127); when
the fallback of the `catch` block throws, the handler ends without a response. -/
def generateRecommendations (h : Host) (fetch : Str → Nat → FetchResult)
    (b : RecommendationsRequest) : Run :=
  { response :=
      match recommendationsTry h fetch b with
      | .ok r => some r
      | .error _ =>
        match generateFallbackRecommendations h b.favoriteGenre b.favoriteType with
        | .ok recs =>
          some { status := 500
                 body := .recommendations (some (lit "Failed to generate recommendations")) recs }
        | .error _ => none
    calls :=
      match b.topRatedItems with
      | some items => [(recommendationsPrompt h b items, 120)]
      | none => [] }

/-- The prompt of the auto-completion handler (index.js, lines 146-150). -/
def autocompletePrompt (title : Str) : Str :=
  lit "For the title \"" ++ title ++
    lit "\", provide creator, release year, genre, and type (movie/game/book/tv_show/music) in format:\nCreator: [name]\nYear: [year]\nGenre: [genre]\nType: [type]"

/-- The part of the auto-completion handler after the local lookup (index.js, lines
146-159). -/
def autocompleteRemote (h : Host) (fetch : Str → Nat → FetchResult) (title : Str) :
    Except JSError Response := do
  let aiResponse ← callHuggingFaceAPI fetch (autocompletePrompt title) 60
  let parsed := parseMediaInfo h (← aiResponse.asString)
  if (parsed.creator.getD []).isEmpty then
    return { status := 200, body := .message (lit "No match found") }
  else
    return { status := 200, body := .media parsed }

/-- The handler of `POST /api/autocomplete-media` (index.js, lines 130-164) on a body
whose `title` field is `title`. -/
def autocompleteMedia (h : Host) (fetch : Str → Nat → FetchResult) (title : JSVal) : Run :=
  match title.asString with
  | .error _ => { response := some { status := 500, body := .error (lit "Auto-completion failed") }
                  calls := [] }
  | .ok t =>
    match lookupLocal (h.toLowerCase t) with
    | some value => { response := some { status := 200, body := .media value }, calls := [] }
    | none =>
      { response :=
          match autocompleteRemote h fetch t with
          | .ok r => some r
          | .error _ => some { status := 500, body := .error (lit "Auto-completion failed") }
        calls := [(autocompletePrompt t, 60)] }

/-! ### The client: `MediaManager.jsx` -/

/-- The form state `formData`: the eight fields the form edits. -/
structure FormData where
  title : Str
  creator : Str
  releaseDate : Str
  genre : Str
  type : Str
  status : Str
  rating : Str
  description : Str
  deriving DecidableEq, Repr

/-- A record of the list `media`: the form fields and the numeric `id`. -/
structure MediaRecord where
  id : Nat
  data : FormData
  deriving DecidableEq, Repr

/-- The component state that `handleSubmit` reads and writes. -/
structure ClientState where
  media : List MediaRecord
  formData : FormData
  showForm : Bool
  editingItem : Option MediaRecord
  deriving DecidableEq, Repr

/-- The form state set by `resetForm` (MediaManager.jsx, lines 313-320). -/
def emptyForm : FormData :=
  { title := [], creator := [], releaseDate := [], genre := [], type := lit "movie",
    status := lit "wishlist", rating := [], description := [] }

/-- Source `handleSubmit` (MediaManager.jsx, lines 299-311), followed by `resetForm`;
`now` is the value of `Date.now()`. The spread `{ ...formData, id }` takes the eight
fields from the form and the given id. -/
def handleSubmit (now : Nat) (st : ClientState) : ClientState :=
  { media :=
      match st.editingItem with
      | some editingItem =>
        st.media.map fun item =>
          if item.id = editingItem.id then { id := editingItem.id, data := st.formData } else item
      | none => st.media ++ [{ id := now, data := st.formData }]
    formData := emptyForm
    showForm := false
    editingItem := none }

/-- The sum `a + b` of two numbers: the exact sum rounded to the nearest binary64. -/
def JSNum.add : JSNum → JSNum → JSNum
  | .nan, _ => .nan
  | _, .nan => .nan
  | .inf a, .inf b => if a = b then .inf a else .nan
  | .inf a, .fin _ _ => .inf a
  | .fin _ _, .inf b => .inf b
  | .fin m e, .fin n f =>
    let k := min e f
    let s : Int := m * 2 ^ (e - k).toNat + n * 2 ^ (f - k).toNat
    if 0 ≤ k then roundBinary64 (decide (s < 0)) (s.natAbs * 2 ^ k.toNat) 1
    else roundBinary64 (decide (s < 0)) s.natAbs (2 ^ (-k).toNat)

/-- The quotient `a / n` of a number by the length `n ≥ 1` of an array: the exact
quotient rounded to the nearest binary64. -/
def JSNum.divNat : JSNum → Nat → JSNum
  | .nan, _ => .nan
  | .inf a, _ => .inf a
  | .fin m e, n =>
    if 0 ≤ e then roundBinary64 (decide (m < 0)) (m.natAbs * 2 ^ e.toNat) n
    else roundBinary64 (decide (m < 0)) m.natAbs (n * 2 ^ (-e).toNat)

/-- `Number.prototype.toFixed(1)`: below `10 ^ 21` in magnitude, the integer `n` for
which `n / 10` is nearest to the magnitude, the larger one of two, written with a point
before its last digit. -/
def toFixed1 (h : Host) : JSNum → Str
  | .nan => lit "NaN"
  | .inf false => lit "Infinity"
  | .inf true => lit "-Infinity"
  | .fin m e =>
    let p : Nat := if 0 ≤ e then 10 * m.natAbs * 2 ^ e.toNat else 10 * m.natAbs
    let q : Nat := if 0 ≤ e then 1 else 2 ^ (-e).toNat
    if 10 ^ 22 * q ≤ p then h.numToStr (.fin m e)
    else
      let digits := natDigits ((2 * p + q) / (2 * q))
      let padded := if digits.length < 2 then 48 :: digits else digits
      (if m < 0 then lit "-" else []) ++ padded.dropLast ++ lit "." ++ padded.getLast?.toList

/-- The summand `parseFloat(item.rating || 0)`: an empty rating is falsy and replaced by
the number 0. -/
def ratingValue (h : Host) (item : MediaRecord) : JSNum :=
  parseFloat h (if item.data.rating.isEmpty then .num (JSNum.ofInt 0) else .str item.data.rating)

/-- The expression for `avgRating` in `generateAIInsights` (MediaManager.jsx, line 140
and again line 169), evaluated on a non-empty list. -/
def avgRating (h : Host) (mediaList : List MediaRecord) : Str :=
  toFixed1 h
    ((mediaList.foldl (fun sum item => sum.add (ratingValue h item)) (JSNum.ofInt 0)).divNat
      mediaList.length)

/-- The three sample records of the component (MediaManager.jsx, lines 63-98). -/
def sampleData : List MediaRecord :=
  [ { id := 1
      data := { title := lit "The Matrix", creator := lit "The Wachowskis",
                releaseDate := lit "1999", genre := lit "Sci-Fi", type := lit "movie",
                status := lit "owned", rating := lit "9.5",
                description := lit "A computer programmer discovers reality is a simulation." } },
    { id := 2
      data := { title := lit "Inception", creator := lit "Christopher Nolan",
                releaseDate := lit "2010", genre := lit "Sci-Fi", type := lit "movie",
                status := lit "complete", rating := lit "9.0",
                description := lit "Dreams within dreams in this mind-bending thriller." } },
    { id := 3
      data := { title := lit "The Witcher 3", creator := lit "CD Projekt Red",
                releaseDate := lit "2015", genre := lit "RPG", type := lit "game",
                status := lit "currently_using", rating := lit "9.8",
                description := lit "Epic fantasy RPG with meaningful choices." } } ]

/-- The update `acc[key] = (acc[key] || 0) + 1` on a count object with the given own
properties, for a key that is not inherited: an own count is incremented, a new key is
added last with the count 1. -/
def bumpCount (acc : List (Str × Nat)) (key : Str) : List (Str × Nat) :=
  if acc.any (fun kv => kv.1 == key) then
    acc.map fun kv => if kv.1 == key then (kv.1, kv.2 + 1) else kv
  else acc ++ [(key, 1)]

/-- The comparison `count[a] > count[b]`: false when either count is `undefined`. -/
def countGt (count : List (Str × Nat)) (a b : Str) : Bool :=
  match count.lookup a, count.lookup b with
  | some x, some y => decide (x > y)
  | _, _ => false

/-- The common body of `getMostCommonGenre` and `getMostCommonType` on a non-empty list
of values: count the values, then reduce over `Object.keys` from the empty string.
The result is `none` when a value is the name of a property inherited from
`Object.prototype`: its count then starts from the text of a built-in function, which
differs between engines. -/
def mostCommonOf (values : List Str) : Option Str :=
  if values.any objectPrototypeKeys.contains then none
  else
    let count := values.foldl bumpCount []
    some (((objectEntries count).map Prod.fst).foldl
      (fun a b => if countGt count a b then a else b) [])

/-- Source `getMostCommonGenre` (MediaManager.jsx, lines 259-267). -/
def getMostCommonGenre (mediaList : List MediaRecord) : Option Str :=
  if mediaList.length = 0 then some (lit "Unknown")
  else mostCommonOf (mediaList.map fun item => item.data.genre)

/-- Source `getMostCommonType` (MediaManager.jsx, lines 269-277). -/
def getMostCommonType (mediaList : List MediaRecord) : Option Str :=
  if mediaList.length = 0 then some (lit "movie")
  else mostCommonOf (mediaList.map fun item => item.data.type)

/-! ### The readings of the specification the code is compared with -/

/-- Is the pair of a genre and a type present in the fallback table: the genre is an own
key of the table and the type an own key of its row. -/
def inFallbackTable (genre type : Str) : Bool :=
  match recommendationTable.lookup genre with
  | some row => (row.lookup type).isSome
  | none => false

/-- The non-blank lines of a text: its lines that are not empty once trimmed. -/
def nonBlankLines (text : Str) : List Str :=
  (split text [NL]).filter fun line => !(trim line).isEmpty

/-- The item for one line of generated text: the trimmed line without its ordinal
marker, and the reason naming the genre and the type. -/
def recommendationFor (genre type line : Str) : RecItem :=
  { title := stripOrdinal (trim line)
    reason := lit "Recommended based on your " ++ genre ++ lit " " ++ type ++ lit " preferences" }

/-- The reading of the recommendation parser in which short lines are filtered out
before the first three lines are taken. -/
def filterThenTake (text genre type : Str) : List RecItem :=
  (((nonBlankLines text).filter fun line => decide (6 ≤ line.length)).take 3).map
    (recommendationFor genre type)

/-- Does the body carry a payload the client can render: a recommendation text, a list
of recommendations, or auto-completion fields. -/
def Body.hasPayload : Body → Bool
  | .insights _ _ => true
  | .recommendations _ _ => true
  | .media _ => true
  | .message _ => false
  | .error _ => false

/-- The four fields of the metadata parser. -/
inductive Field where
  | creator
  | year
  | genre
  | type
  deriving DecidableEq, Repr, Fintype

/-- The literal prefix the parser looks for, for each field. -/
def Field.label : Field → Str
  | .creator => lit "Creator:"
  | .year => lit "Year:"
  | .genre => lit "Genre:"
  | .type => lit "Type:"

/-- The field of the parsed object that belongs to a prefix: `creator`, `releaseDate`,
`genre`, `type`. -/
def MediaInfo.get (info : MediaInfo) : Field → Option Str
  | .creator => info.creator
  | .year => info.releaseDate
  | .genre => info.genre
  | .type => info.type

/-- The text after the first occurrence of `p` in a string, if `p` occurs. -/
def afterFirst (p : Str) : Str → Option Str
  | [] => if p.isEmpty then some [] else none
  | c :: cs => if p.isPrefixOf (c :: cs) then some ((c :: cs).drop p.length) else afterFirst p cs

/-- The text before the first occurrence of `p` in a string, the whole string if `p`
does not occur. -/
def beforeFirst (p : Str) : Str → Str
  | [] => []
  | c :: cs => if p.isPrefixOf (c :: cs) then [] else c :: beforeFirst p cs

/-- The value a field is given, trimmed, and lower-cased for the type. -/
def Field.finish (h : Host) : Field → Str → Str
  | .type, s => h.toLowerCase (trim s)
  | _, s => trim s

/-- A line of the form "Creator: c", "Year: y", "Genre: g" or "Type: t". -/
def formLine (f : Field) (v : Str) : Str := f.label ++ 32 :: v

/-- A text made of lines of the four forms, joined by line feeds. -/
def formText (lines : List (Field × Str)) : Str :=
  joinWith [NL] (lines.map fun fv => formLine fv.1 fv.2)

/-- The field a line is read for: that of the first prefix, in the order `Creator:`,
`Year:`, `Genre:`, `Type:`, that the line contains. -/
def lineField (line : Str) : Option Field :=
  [Field.creator, Field.year, Field.genre, Field.type].find? fun f => includes line f.label

/-- The value read from a line for a field: the text between the first occurrence of the
prefix and its next occurrence on the line, or the end of the line. -/
def lineValue (h : Host) (f : Field) (line : Str) : Option Str :=
  (afterFirst f.label line).map fun rest => f.finish h (beforeFirst f.label rest)

/-- The reading of the metadata parser in which a field is the text that follows the
first occurrence of its prefix in the text, up to the end of that line. -/
def firstOccurrenceValue (h : Host) (f : Field) (text : Str) : Option Str :=
  (afterFirst f.label text).map fun rest => f.finish h (rest.takeWhile fun c => c != NL)

/-- The genre whose row the fallback uses: the requested genre when it is a key of the
table, Sci-Fi otherwise. -/
def defaultedGenre (genre : Str) : Str :=
  if genre ∈ [lit "Sci-Fi", lit "Fantasy", lit "Action"] then genre else lit "Sci-Fi"

/-- The type whose titles the fallback uses: the requested type when it is a key of a
row, movie otherwise. -/
def defaultedType (type : Str) : Str :=
  if type ∈ [lit "movie", lit "game", lit "book"] then type else lit "movie"

/-- The titles the table lists for a genre and a type. -/
def tableTitles (genre type : Str) : List Str :=
  ((recommendationTable.lookup genre).bind fun row => row.lookup type).getD []

/-- The catalog in the order it is written in the source: movies, games, books, each
category as listed. -/
def sourceOrderEntries : List (Str × MediaInfo) :=
  (getMediaDatabase.map fun category => category.2).flatten

/-- Does a catalog key match a lower-cased title: one contains the other. -/
def keyMatches (titleLower : Str) (kv : Str × MediaInfo) : Bool :=
  includes kv.1 titleLower || includes titleLower kv.1

/-- The distinct values of a list in the order of their first appearance. -/
def firstAppearances (values : List Str) : List Str :=
  values.foldl (fun seen v => if v ∈ seen then seen else seen ++ [v]) []

/-- The order in which the keys of the count object are enumerated: the distinct values
in order of first appearance, with the integer-like ones moved to the front in
ascending numeric order. -/
def keyOrder (values : List Str) : List Str :=
  (objectEntries ((firstAppearances values).map fun k => (k, values.count k))).map Prod.fst

/-! ## Theorems -/

/-- A number below 30 is not above 80, so the second branch of the source is reached
exactly when the number is below 30. -/
theorem JSNum.not_gt_of_lt (r : JSNum) (h : r.lt (JSNum.ofInt 30) = true) :
    r.gt (JSNum.ofInt 80) = false := by
  cases r with
  | nan => rfl
  | inf b => cases b <;> simp_all [JSNum.lt, JSNum.gt, JSNum.ofInt]
  | fin m e =>
    simp only [JSNum.lt, JSNum.gt, JSNum.ofInt, decide_eq_true_eq, decide_eq_false_iff_not,
      min_comm 0 e] at h ⊢
    have hb : (0 : Int) < 2 ^ ((0 : Int) - min e 0).toNat := by positivity
    omega

/-- C1: with `r` the number parsed from `completionRate`, `generateFallbackInsight`
returns the "Great job" sentence when `r > 80`, the "growing collection" sentence when
`r < 30`, and the "well-balanced" sentence in every other case, among them `r = 80`,
`r = 30` and `r` not a number. -/
theorem generateFallbackInsight_branches (h : Host) (completionRate totalItems favoriteGenre : JSVal) :
    ((parseFloat h completionRate).gt (JSNum.ofInt 80) = true →
      generateFallbackInsight h completionRate totalItems favoriteGenre =
        lit "Great job! You've completed " ++ completionRate.toStr h ++
        lit "% of your collection. Your " ++ favoriteGenre.toStr h ++
        lit " taste is showing strong dedication!") ∧
    ((parseFloat h completionRate).lt (JSNum.ofInt 30) = true →
      generateFallbackInsight h completionRate totalItems favoriteGenre =
        lit "You have a growing collection of " ++ totalItems.toStr h ++
        lit " items! Consider focusing on completing some " ++ favoriteGenre.toStr h ++
        lit " titles first.") ∧
    (((parseFloat h completionRate).gt (JSNum.ofInt 80) = false ∧
        (parseFloat h completionRate).lt (JSNum.ofInt 30) = false) →
      generateFallbackInsight h completionRate totalItems favoriteGenre =
        lit "Your " ++ favoriteGenre.toStr h ++ lit " collection is well-balanced with " ++
        totalItems.toStr h ++ lit " items. Keep exploring new titles!") ∧
    ((parseFloat h completionRate = JSNum.ofInt 80 ∨ parseFloat h completionRate = JSNum.ofInt 30 ∨
        parseFloat h completionRate = JSNum.nan) →
      generateFallbackInsight h completionRate totalItems favoriteGenre =
        lit "Your " ++ favoriteGenre.toStr h ++ lit " collection is well-balanced with " ++
        totalItems.toStr h ++ lit " items. Keep exploring new titles!") := by
  refine ⟨?_, ?_, ?_, ?_⟩
  · intro hgt
    simp [generateFallbackInsight, hgt]
  · intro hlt
    simp [generateFallbackInsight, hlt, JSNum.not_gt_of_lt _ hlt]
  · rintro ⟨hgt, hlt⟩
    simp [generateFallbackInsight, hgt, hlt]
  · intro hr
    have : (parseFloat h completionRate).gt (JSNum.ofInt 80) = false ∧
        (parseFloat h completionRate).lt (JSNum.ofInt 30) = false := by
      rcases hr with hr | hr | hr <;> rw [hr] <;> decide
    simp [generateFallbackInsight, this.1, this.2]

/-- Witness of C1: a completion rate of 85.5 gives the "Great job" sentence. -/
theorem generateFallbackInsight_branches_witness :
    generateFallbackInsight refHost (.str (lit "85.5")) (.num (JSNum.ofInt 3))
        (.str (lit "Sci-Fi")) =
      lit "Great job! You've completed 85.5% of your collection. Your Sci-Fi taste is showing strong dedication!" :=
  (generateFallbackInsight_branches refHost (.str (lit "85.5")) (.num (JSNum.ofInt 3))
    (.str (lit "Sci-Fi"))).1 (by decide)

/-- C2: when the outbound call of `/api/generate-insights` fails, by a network error or
by a response whose status is not a success, the handler responds with status 500 and a
body whose `recommendation` is `generateFallbackInsight` of the same request body. -/
theorem generateInsights_outbound_failure (h : Host) (fetch : Str → Nat → FetchResult)
    (b : InsightsRequest)
    (hfail : fetch (insightsPrompt h b) 80 = .networkError ∨
      ∃ status payload, fetch (insightsPrompt h b) 80 = .response false status payload) :
    (generateInsights h fetch b).response =
      some { status := 500
             body := .insights (some (lit "Failed to generate insights"))
               (generateFallbackInsight h b.completionRate b.totalItems b.favoriteGenre) } := by
  rcases hfail with hf | ⟨status, payload, hf⟩ <;>
    simp [generateInsights, insightsTry, callHuggingFaceAPI, hf, bind, Except.bind]

/-- Witness of C2: the outbound call answers 503. -/
theorem generateInsights_outbound_failure_witness :
    (generateInsights refHost (fun _ _ => .response false 503 none)
        ⟨.str (lit "Dune (book, Sci-Fi, complete)"), .num (JSNum.ofInt 1), .str (lit "100.0"),
          .str (lit "9.0"), .str (lit "Sci-Fi")⟩).response =
      some { status := 500
             body := .insights (some (lit "Failed to generate insights"))
               (generateFallbackInsight refHost (.str (lit "100.0")) (.num (JSNum.ofInt 1))
                 (.str (lit "Sci-Fi"))) } :=
  generateInsights_outbound_failure refHost (fun _ _ => .response false 503 none)
    ⟨.str (lit "Dune (book, Sci-Fi, complete)"), .num (JSNum.ofInt 1), .str (lit "100.0"),
      .str (lit "9.0"), .str (lit "Sci-Fi")⟩ (Or.inr ⟨503, none, rfl⟩)

/-- The first key the auto-completion loops visit is "the matrix". -/
theorem catalogEntries_head :
    catalogEntries =
      (lit "the matrix", entry "The Wachowskis" "1999" "Sci-Fi" "movie") :: catalogEntries.tail := by
  decide

/-- C3: for every title whose lower-cased form is contained in "the matrix" or contains
it, `/api/autocomplete-media` responds with the entry of The Matrix and issues no
outbound call. -/
theorem autocompleteMedia_the_matrix (h : Host) (fetch : Str → Nat → FetchResult) (title : Str)
    (hm : includes (lit "the matrix") (h.toLowerCase title) = true ∨
      includes (h.toLowerCase title) (lit "the matrix") = true) :
    autocompleteMedia h fetch (.str title) =
      { response := some
          { status := 200
            body := .media
              { creator := some (lit "The Wachowskis"), releaseDate := some (lit "1999"),
                genre := some (lit "Sci-Fi"), type := some (lit "movie") } }
        calls := [] } := by
  have hfind : lookupLocal (h.toLowerCase title) =
      some (entry "The Wachowskis" "1999" "Sci-Fi" "movie") := by
    unfold lookupLocal
    rw [catalogEntries_head, List.find?_cons_of_pos]
    · rfl
    · simpa using hm
  simp [autocompleteMedia, JSVal.asString, hfind, entry]

/-- Witness of C3: the title "MATRIX" under the reference host. -/
theorem autocompleteMedia_the_matrix_witness :
    (autocompleteMedia refHost (fun _ _ => .networkError) (.str (lit "MATRIX"))).calls = [] :=
  congrArg Run.calls
    (autocompleteMedia_the_matrix refHost (fun _ _ => .networkError) (lit "MATRIX")
      (Or.inl (by decide)))

/-- Splitting at line feeds, one code unit at a time. -/
theorem split_nl_cons (c : CodeUnit) (cs : Str) :
    split (c :: cs) [NL] =
      if c = NL then [] :: split cs [NL]
      else match split cs [NL] with
        | [] => [[c]]
        | p :: ps => (c :: p) :: ps := by
  by_cases hc : c = NL
  · simp [split, splitFrom, List.isPrefixOf, hc]
  · have hc2 : ¬ NL = c := fun e => hc e.symm
    simp [split, splitFrom, List.isPrefixOf, hc, hc2]

/-- A string without a line feed is a single line. -/
theorem split_nl_single (a : Str) (ha : NL ∉ a) : split a [NL] = [a] := by
  induction a with
  | nil => rfl
  | cons c cs ih =>
    simp only [List.mem_cons, not_or] at ha
    rw [split_nl_cons, if_neg (fun hc => ha.1 hc.symm), ih ha.2]

/-- The first line of a text ends at its first line feed. -/
theorem split_nl_append (a b : Str) (ha : NL ∉ a) :
    split (a ++ NL :: b) [NL] = a :: split b [NL] := by
  induction a with
  | nil => simp [split_nl_cons]
  | cons c cs ih =>
    simp only [List.mem_cons, not_or] at ha
    rw [List.cons_append, split_nl_cons, if_neg (fun hc => ha.1 hc.symm), ih ha.2]

/-- The `for` loop of `parseRecommendations` keeps, in order, the lines longer than 5
code units and turns each into an item. -/
theorem foldl_pushRecommendation (genre type : Str) (lines : List Str) (acc : List RecItem) :
    lines.foldl (pushRecommendation genre type) acc =
      acc ++ (lines.filter fun line => decide (line.length > 5)).map fun line =>
        { title := stripOrdinal (trim line)
          reason := lit "Recommended based on your " ++ genre ++ lit " " ++ type ++
            lit " preferences" } := by
  induction lines generalizing acc with
  | nil => simp
  | cons l ls ih =>
    by_cases hl : l.length > 5
    · simp [List.foldl_cons, pushRecommendation, hl, ih, List.filter_cons]
    · simp [List.foldl_cons, pushRecommendation, hl, ih, List.filter_cons]

/-- The recommendation parser as a whole: the first three non-blank lines, of which the
ones longer than 5 code units become items. -/
theorem parseRecommendations_take_filter (text genre type : Str) :
    parseRecommendations text genre type =
      (((nonBlankLines text).take 3).filter fun line => decide (line.length > 5)).map
        (recommendationFor genre type) := by
  simp [parseRecommendations, nonBlankLines, foldl_pushRecommendation, recommendationFor]

/-- C6, as stated, fails: ("Fantasy", "tv_show") and ("Horror", "game") are both absent
from the fallback table, yet the first gives the Fantasy movie titles and the second the
Sci-Fi game titles, not "Arrival", "Ex Machina", "Minority Report". -/
theorem fallback_absent_pair_not_scifi_movie :
    inFallbackTable (lit "Fantasy") (lit "tv_show") = false ∧
    (generateFallbackRecommendations refHost (.str (lit "Fantasy")) (.str (lit "tv_show"))).map
        (List.map RecItem.title) =
      .ok [lit "Lord of the Rings", lit "Pan's Labyrinth", lit "The Shape of Water"] ∧
    inFallbackTable (lit "Horror") (lit "game") = false ∧
    (generateFallbackRecommendations refHost (.str (lit "Horror")) (.str (lit "game"))).map
        (List.map RecItem.title) =
      .ok [lit "Deus Ex", lit "Mass Effect", lit "Bioshock"] := by
  decide

/-- C7: the number of items `parseRecommendations` returns is the number of lines longer
than 5 code units among the first three non-blank lines of the text; it is at most 3, and
a text that is a single line of 3 code units yields no item. -/
theorem parseRecommendations_length (text genre type : Str) :
    (parseRecommendations text genre type).length =
        ((nonBlankLines text).take 3).countP (fun line => decide (line.length > 5)) ∧
    (parseRecommendations text genre type).length ≤ 3 ∧
    (∀ line : Str, line.length = 3 → NL ∉ line →
      parseRecommendations line genre type = []) := by
  refine ⟨?_, ?_, ?_⟩
  · rw [parseRecommendations_take_filter, List.length_map, List.countP_eq_length_filter]
  · rw [parseRecommendations_take_filter, List.length_map]
    exact (List.length_filter_le _ _).trans
      ((List.length_take_le _ _).trans (le_refl 3))
  · intro line hlen hnl
    rw [parseRecommendations_take_filter, nonBlankLines, split_nl_single line hnl]
    by_cases hb : (trim line).isEmpty = true <;> simp [List.filter_cons, hb, hlen]

/-- Witness of C7: the single line "abc". -/
theorem parseRecommendations_length_witness :
    parseRecommendations (lit "abc") (lit "Sci-Fi") (lit "movie") = [] :=
  (parseRecommendations_length (lit "abc") (lit "Sci-Fi") (lit "movie")).2.2 (lit "abc")
    (by decide) (by decide)

/-- C8, as stated, fails: on a 3-unit line followed by three long lines the code returns
2 items, while filtering out the short lines before taking three would give 3. -/
theorem parseRecommendations_short_line_takes_slot :
    (parseRecommendations (lit "abc\n1. Alpha one\n2. Bravo two\n3. Charlie three")
        (lit "Sci-Fi") (lit "movie")).map RecItem.title = [lit "Alpha one", lit "Bravo two"] ∧
    (filterThenTake (lit "abc\n1. Alpha one\n2. Bravo two\n3. Charlie three")
        (lit "Sci-Fi") (lit "movie")).map RecItem.title =
      [lit "Alpha one", lit "Bravo two", lit "Charlie three"] := by
  decide

/-- C8, amended: the first three non-blank lines are taken first, and the lines of at
most 5 code units among them are then dropped, so a short line among the first three
non-blank lines uses up one of the three places. -/
theorem parseRecommendations_take_then_filter (text genre type : Str) :
    parseRecommendations text genre type =
      (((nonBlankLines text).take 3).filter fun line => decide (6 ≤ line.length)).map
        (recommendationFor genre type) := by
  rw [parseRecommendations_take_filter]
  rfl

/-- C10, as stated, fails: when the outbound call of `/api/autocomplete-media` fails, the
500 response carries the error message alone. -/
theorem autocompleteMedia_failure_error_only :
    (autocompleteMedia refHost (fun _ _ => .networkError) (.str (lit "zzzz"))).response =
      some { status := 500, body := .error (lit "Auto-completion failed") } ∧
    Body.hasPayload (.error (lit "Auto-completion failed")) = false := by
  decide

/-- The `try` block of the insights handler only ever produces a 200 response. -/
theorem insightsTry_status (h : Host) (fetch : Str → Nat → FetchResult) (b : InsightsRequest)
    (r : Response) (hr : insightsTry h fetch b = .ok r) : r.status = 200 := by
  unfold insightsTry at hr
  cases hc : callHuggingFaceAPI fetch (insightsPrompt h b) 80 with
  | error e => simp [hc, bind, Except.bind] at hr
  | ok v =>
    cases hv : v.asString with
    | error e => simp [hc, hv, bind, Except.bind] at hr
    | ok t =>
      simp only [hc, hv, bind, Except.bind, pure, Except.pure, Except.ok.injEq] at hr
      rw [← hr]

/-- The `try` block of the recommendations handler only ever produces a 200 response. -/
theorem recommendationsTry_status (h : Host) (fetch : Str → Nat → FetchResult)
    (b : RecommendationsRequest) (r : Response) (hr : recommendationsTry h fetch b = .ok r) :
    r.status = 200 := by
  unfold recommendationsTry at hr
  cases hi : b.topRatedItems with
  | none => simp [hi, bind, Except.bind, throw, throwThe, MonadExceptOf.throw] at hr
  | some items =>
    cases hc : callHuggingFaceAPI fetch (recommendationsPrompt h b items) 120 with
    | error e => simp [hi, hc, bind, Except.bind, pure, Except.pure] at hr
    | ok v =>
      simp only [hi, hc, bind, Except.bind, pure, Except.pure] at hr
      split at hr
      · cases hf : generateFallbackRecommendations h b.favoriteGenre b.favoriteType with
        | error e => simp [hf] at hr
        | ok recs =>
          simp only [hf, Except.ok.injEq] at hr
          rw [← hr]
      · simp only [Except.ok.injEq] at hr
        rw [← hr]

/-- The remote part of the auto-completion handler only ever produces a 200 response. -/
theorem autocompleteRemote_status (h : Host) (fetch : Str → Nat → FetchResult) (title : Str)
    (r : Response) (hr : autocompleteRemote h fetch title = .ok r) : r.status = 200 := by
  unfold autocompleteRemote at hr
  cases hc : callHuggingFaceAPI fetch (autocompletePrompt title) 60 with
  | error e => simp [hc, bind, Except.bind] at hr
  | ok v =>
    cases hv : v.asString with
    | error e => simp [hc, hv, bind, Except.bind] at hr
    | ok t =>
      simp only [hc, hv, bind, Except.bind, pure, Except.pure] at hr
      split at hr <;> simp only [Except.ok.injEq] at hr <;> rw [← hr]

/-- C10, amended: a 500 response of `/api/generate-insights` carries the fallback insight
and a 500 response of `/api/generate-recommendations` the fallback recommendations, both
computed from the request body; a 500 response of `/api/autocomplete-media` carries the
error message alone. -/
theorem status_500_bodies (h : Host) (fetch : Str → Nat → FetchResult) :
    (∀ (b : InsightsRequest) (r : Response),
      (generateInsights h fetch b).response = some r → r.status = 500 →
      r.body = .insights (some (lit "Failed to generate insights"))
        (generateFallbackInsight h b.completionRate b.totalItems b.favoriteGenre)) ∧
    (∀ (b : RecommendationsRequest) (r : Response),
      (generateRecommendations h fetch b).response = some r → r.status = 500 →
      ∃ recs, generateFallbackRecommendations h b.favoriteGenre b.favoriteType = .ok recs ∧
        r.body = .recommendations (some (lit "Failed to generate recommendations")) recs) ∧
    (∀ (title : JSVal) (r : Response),
      (autocompleteMedia h fetch title).response = some r → r.status = 500 →
      r.body = .error (lit "Auto-completion failed")) := by
  refine ⟨?_, ?_, ?_⟩
  · intro b r hr hs
    unfold generateInsights at hr
    cases ht : insightsTry h fetch b with
    | ok r0 =>
      simp only [ht, Option.some.injEq] at hr
      have := insightsTry_status h fetch b r0 ht
      rw [hr] at this
      omega
    | error e =>
      simp only [ht, Option.some.injEq] at hr
      rw [← hr]
  · intro b r hr hs
    unfold generateRecommendations at hr
    cases ht : recommendationsTry h fetch b with
    | ok r0 =>
      simp only [ht, Option.some.injEq] at hr
      have := recommendationsTry_status h fetch b r0 ht
      rw [hr] at this
      omega
    | error e =>
      cases hf : generateFallbackRecommendations h b.favoriteGenre b.favoriteType with
      | error e2 => simp [ht, hf] at hr
      | ok recs =>
        simp only [ht, hf, Option.some.injEq] at hr
        exact ⟨recs, rfl, by rw [← hr]⟩
  · intro title r hr hs
    unfold autocompleteMedia at hr
    cases hv : title.asString with
    | error e =>
      simp only [hv, Option.some.injEq] at hr
      rw [← hr]
    | ok t =>
      simp only [hv] at hr
      cases hl : lookupLocal (h.toLowerCase t) with
      | some value =>
        simp only [hl, Option.some.injEq] at hr
        rw [← hr] at hs
        simp at hs
      | none =>
        simp only [hl] at hr
        cases ht : autocompleteRemote h fetch t with
        | ok r0 =>
          simp only [ht, Option.some.injEq] at hr
          have := autocompleteRemote_status h fetch t r0 ht
          rw [hr] at this
          omega
        | error e =>
          simp only [ht, Option.some.injEq] at hr
          rw [← hr]

/-- Witness of the amended C10: the outbound call of the recommendations handler fails
with a network error and the 500 response carries the fallback list. -/
theorem status_500_bodies_witness :
    ∃ recs, generateFallbackRecommendations refHost (.str (lit "Fantasy")) (.str (lit "book")) =
        .ok recs ∧
      (⟨500, .recommendations (some (lit "Failed to generate recommendations"))
          [⟨lit "Game of Thrones", lit "Perfect for Fantasy book fans"⟩,
           ⟨lit "Name of the Wind", lit "Perfect for Fantasy book fans"⟩,
           ⟨lit "Mistborn", lit "Perfect for Fantasy book fans"⟩]⟩ : Response).body =
        .recommendations (some (lit "Failed to generate recommendations")) recs :=
  (status_500_bodies refHost (fun _ _ => .networkError)).2.1
    ⟨.str (lit "Fantasy"), .str (lit "book"), some []⟩
    ⟨500, .recommendations (some (lit "Failed to generate recommendations"))
      [⟨lit "Game of Thrones", lit "Perfect for Fantasy book fans"⟩,
       ⟨lit "Name of the Wind", lit "Perfect for Fantasy book fans"⟩,
       ⟨lit "Mistborn", lit "Perfect for Fantasy book fans"⟩]⟩
    (by decide) rfl

/-- A string that `trim` leaves unchanged has no leading white space. -/
theorem trimStart_eq_of_trim_eq (t : Str) (ht : trim t = t) : trimStart t = t := by
  have h1 : (trim t).length ≤ (trimStart t).length := by
    unfold trim trimEnd
    rw [List.length_reverse]
    exact ((List.dropWhile_suffix isSpace).length_le).trans (by rw [List.length_reverse])
  have h2 : (trimStart t).length ≤ t.length := (List.dropWhile_suffix isSpace).length_le
  rw [ht] at h1
  exact (List.dropWhile_suffix isSpace).eq_of_length (le_antisymm h2 h1)

/-- A string that `trim` leaves unchanged has no trailing white space. -/
theorem trimEnd_eq_of_trim_eq (t : Str) (ht : trim t = t) : trimEnd t = t := by
  have h := trimStart_eq_of_trim_eq t ht
  unfold trim at ht
  rwa [h] at ht

/-- White space is trimmed from the two ends only: a string that starts with a code unit
that is not white space and ends with a trimmed, non-empty string is unchanged. -/
theorem trim_cons_append (c : CodeUnit) (p t : Str) (hc : isSpace c = false) (ht : trim t = t)
    (hne : t ≠ []) : trim (c :: (p ++ t)) = c :: (p ++ t) := by
  have hs : trimStart (c :: (p ++ t)) = c :: (p ++ t) := by
    simp [trimStart, List.dropWhile_cons, hc]
  have he := trimEnd_eq_of_trim_eq t ht
  unfold trim
  rw [hs]
  unfold trimEnd at he ⊢
  have hrev : t.reverse.dropWhile isSpace = t.reverse := by
    have := congrArg List.reverse he
    simpa using this
  cases hr : t.reverse with
  | nil => exact absurd (List.reverse_eq_nil_iff.mp hr) hne
  | cons x xs =>
    rw [hr] at hrev
    have hx : isSpace x = false := by
      by_contra hx
      have hx2 : isSpace x = true := by simpa using hx
      rw [List.dropWhile_cons, if_pos hx2] at hrev
      have hl := (List.dropWhile_suffix isSpace (l := xs)).length_le
      rw [hrev] at hl
      simp at hl
    have : (c :: (p ++ t)).reverse = x :: (xs ++ (c :: p).reverse) := by
      simp [hr]
    rw [this, List.dropWhile_cons, if_neg (by simp [hx]), ← this, List.reverse_reverse]

/-- The ordinal marker "d. " in front of a title without leading white space is what
the regular expression of `parseRecommendations` removes. -/
theorem stripOrdinal_marker (d : CodeUnit) (t : Str) (hd : isDigit d = true)
    (ht : trimStart t = t) : stripOrdinal (d :: 46 :: 32 :: t) = t := by
  have hspan : (d :: 46 :: 32 :: t).span isDigit = ([d], 46 :: 32 :: t) := by
    have h46 : isDigit 46 = false := by decide
    rw [List.span_eq_take_drop]
    simp [List.takeWhile_cons, List.dropWhile_cons, hd, h46]
  unfold stripOrdinal
  rw [hspan]
  have : (32 :: t).dropWhile isSpace = t := by
    rw [List.dropWhile_cons, if_pos (by decide)]
    exact ht
  simpa using this

/-- One numbered line "d. t" of generated text, for a trimmed title `t` of at least 3
code units: it is not blank, it is longer than 5, and its item is titled `t`. -/
theorem numbered_line (d : CodeUnit) (t genre type : Str) (hd : isDigit d = true)
    (hs : isSpace d = false) (hlen : 3 ≤ t.length) (ht : trim t = t) :
    (trim (d :: 46 :: 32 :: t)).isEmpty = false ∧ (d :: 46 :: 32 :: t).length > 5 ∧
    recommendationFor genre type (d :: 46 :: 32 :: t) =
      { title := t
        reason := lit "Recommended based on your " ++ genre ++ lit " " ++ type ++
          lit " preferences" } := by
  have hne : t ≠ [] := by
    intro h0
    rw [h0] at hlen
    simp at hlen
  have htrim : trim (d :: 46 :: 32 :: t) = d :: 46 :: 32 :: t :=
    trim_cons_append d [46, 32] t hs ht hne
  refine ⟨by rw [htrim]; rfl, by simp only [List.length_cons]; omega, ?_⟩
  unfold recommendationFor
  rw [htrim, stripOrdinal_marker d t hd (trimStart_eq_of_trim_eq t ht)]

/-- C5: for titles `t1`, `t2`, `t3` of at least 3 code units each, without a line feed and
without leading or trailing white space, `parseRecommendations` on
"1. t1\n2. t2\n3. t3" returns exactly three items, in order, titled `t1`, `t2`, `t3`,
each with the reason "Recommended based on your {genre} {type} preferences". -/
theorem parseRecommendations_numbered (t1 t2 t3 genre type : Str)
    (hl1 : 3 ≤ t1.length) (hl2 : 3 ≤ t2.length) (hl3 : 3 ≤ t3.length)
    (hn1 : NL ∉ t1) (hn2 : NL ∉ t2) (hn3 : NL ∉ t3)
    (hw1 : trim t1 = t1) (hw2 : trim t2 = t2) (hw3 : trim t3 = t3) :
    parseRecommendations
        (lit "1. " ++ t1 ++ lit "\n2. " ++ t2 ++ lit "\n3. " ++ t3) genre type =
      [ { title := t1
          reason := lit "Recommended based on your " ++ genre ++ lit " " ++ type ++
            lit " preferences" },
        { title := t2
          reason := lit "Recommended based on your " ++ genre ++ lit " " ++ type ++
            lit " preferences" },
        { title := t3
          reason := lit "Recommended based on your " ++ genre ++ lit " " ++ type ++
            lit " preferences" } ] := by
  have htext : lit "1. " ++ t1 ++ lit "\n2. " ++ t2 ++ lit "\n3. " ++ t3 =
      (49 :: 46 :: 32 :: t1) ++ NL :: ((50 :: 46 :: 32 :: t2) ++ NL :: (51 :: 46 :: 32 :: t3)) := by
    have e1 : lit "1. " = [49, 46, 32] := by decide
    have e2 : lit "\n2. " = [NL, 50, 46, 32] := by decide
    have e3 : lit "\n3. " = [NL, 51, 46, 32] := by decide
    rw [e1, e2, e3]
    simp
  have hnl : ∀ (d : CodeUnit) (t : Str), d ≠ NL → NL ∉ t → NL ∉ d :: 46 :: 32 :: t := by
    intro d t hd ht hmem
    simp only [List.mem_cons] at hmem
    rcases hmem with h | h | h | h
    · exact hd h.symm
    · exact absurd h (by decide)
    · exact absurd h (by decide)
    · exact ht h
  obtain ⟨a1, b1, c1⟩ := numbered_line 49 t1 genre type (by decide) (by decide) hl1 hw1
  obtain ⟨a2, b2, c2⟩ := numbered_line 50 t2 genre type (by decide) (by decide) hl2 hw2
  obtain ⟨a3, b3, c3⟩ := numbered_line 51 t3 genre type (by decide) (by decide) hl3 hw3
  have hlines : nonBlankLines
      ((49 :: 46 :: 32 :: t1) ++ NL :: ((50 :: 46 :: 32 :: t2) ++ NL :: (51 :: 46 :: 32 :: t3))) =
      [49 :: 46 :: 32 :: t1, 50 :: 46 :: 32 :: t2, 51 :: 46 :: 32 :: t3] := by
    unfold nonBlankLines
    rw [split_nl_append _ _ (hnl 49 t1 (by decide) hn1),
      split_nl_append _ _ (hnl 50 t2 (by decide) hn2),
      split_nl_single _ (hnl 51 t3 (by decide) hn3)]
    simp [List.filter_cons, a1, a2, a3]
  rw [htext, parseRecommendations_take_filter, hlines]
  have d1 : decide ((49 :: 46 :: 32 :: t1).length > 5) = true := by simpa using b1
  have d2 : decide ((50 :: 46 :: 32 :: t2).length > 5) = true := by simpa using b2
  have d3 : decide ((51 :: 46 :: 32 :: t3).length > 5) = true := by simpa using b3
  simp only [List.take, List.filter_cons, d1, d2, d3, if_true, List.filter_nil, List.map_cons,
    List.map_nil, c1, c2, c3]

/-- Witness of C5: the text "1. Foo\n2. Bar\n3. Baz". -/
theorem parseRecommendations_numbered_witness :
    (parseRecommendations (lit "1. " ++ lit "Foo" ++ lit "\n2. " ++ lit "Bar" ++ lit "\n3. " ++
        lit "Baz") (lit "Sci-Fi") (lit "movie")).map RecItem.title =
      [lit "Foo", lit "Bar", lit "Baz"] :=
  congrArg (List.map RecItem.title)
    (parseRecommendations_numbered (lit "Foo") (lit "Bar") (lit "Baz") (lit "Sci-Fi")
      (lit "movie") (by decide) (by decide) (by decide) (by decide) (by decide) (by decide)
      (by decide) (by decide) (by decide))

/-- After a match, `split` skips the rest of the separator. -/
theorem splitFrom_skip (sep : Str) (k : Nat) (s : Str) :
    splitFrom sep k s = splitFrom sep 0 (s.drop k) := by
  induction k generalizing s with
  | zero => rfl
  | succ k ih =>
    cases s with
    | nil => rfl
    | cons c cs => simp [splitFrom, ih cs]

/-- The pieces of `s.split(p)`: the text before the first occurrence of `p`, then the
pieces of the text after it. -/
theorem split_eq_before_after (p s : Str) (hp : p ≠ []) :
    split s p = beforeFirst p s ::
      (match afterFirst p s with
        | none => []
        | some rest => split rest p) := by
  induction s with
  | nil =>
    have : p.isEmpty = false := by cases p <;> simp_all
    simp [split, splitFrom, beforeFirst, afterFirst, this]
  | cons c cs ih =>
    by_cases hpre : p.isPrefixOf (c :: cs) = true
    · have hlen : p.length - 1 + 1 = p.length := by
        cases p with
        | nil => exact absurd rfl hp
        | cons x xs => simp
      have hdrop : (c :: cs).drop p.length = cs.drop (p.length - 1) := by
        rw [← hlen, List.drop_succ_cons, hlen]
      simp only [split, splitFrom, hpre, if_true, beforeFirst, afterFirst, hdrop]
      rw [splitFrom_skip]
    · unfold split at ih ⊢
      simp only [splitFrom, hpre, beforeFirst, afterFirst, ih]
      simp

/-- The expression `line.split(p)[1]?.trim()` is the trimmed text between the first
occurrence of `p` and the next one. -/
theorem fieldAfter_eq (p line : Str) (hp : p ≠ []) :
    fieldAfter line p = (afterFirst p line).map fun rest => trim (beforeFirst p rest) := by
  unfold fieldAfter
  rw [split_eq_before_after p line hp]
  cases afterFirst p line with
  | none => rfl
  | some rest =>
    show Option.map trim ((beforeFirst p line :: split rest p).get? 1) = _
    rw [split_eq_before_after p rest hp]
    rfl

/-- No prefix is the empty string. -/
theorem label_ne_nil (f : Field) : f.label ≠ [] := by
  cases f <;> decide

/-- One pass of the loop body of `parseMediaInfo`: the line assigns the field it is read
for and leaves the other fields as they were. -/
theorem parseMediaLine_get (h : Host) (info : MediaInfo) (line : Str) (f : Field) :
    (parseMediaLine h info line).get f =
      if lineField line = some f then lineValue h f line else info.get f := by
  have e1 := fieldAfter_eq (lit "Creator:") line (label_ne_nil .creator)
  have e2 := fieldAfter_eq (lit "Year:") line (label_ne_nil .year)
  have e3 := fieldAfter_eq (lit "Genre:") line (label_ne_nil .genre)
  have e4 := fieldAfter_eq (lit "Type:") line (label_ne_nil .type)
  unfold parseMediaLine lineField
  simp only [List.find?, Field.label]
  by_cases c1 : includes line (lit "Creator:") = true
  · cases f <;> simp [c1, MediaInfo.get, lineValue, Field.finish, Field.label, e1]
  · by_cases c2 : includes line (lit "Year:") = true
    · cases f <;> simp [c1, c2, MediaInfo.get, lineValue, Field.finish, Field.label, e2]
    · by_cases c3 : includes line (lit "Genre:") = true
      · cases f <;> simp [c1, c2, c3, MediaInfo.get, lineValue, Field.finish, Field.label, e3]
      · by_cases c4 : includes line (lit "Type:") = true
        · cases f <;>
            simp [c1, c2, c3, c4, MediaInfo.get, lineValue, Field.finish, Field.label, e4,
              Function.comp_def]
        · cases f <;> simp [c1, c2, c3, c4, MediaInfo.get]

/-- The loop of `parseMediaInfo`: a field ends with the value of the last line read for
it, and keeps its initial value when no line is read for it. -/
theorem foldl_parseMediaLine_get (h : Host) (lines : List Str) (info : MediaInfo) (f : Field) :
    (lines.foldl (parseMediaLine h) info).get f =
      match (lines.filter fun line => decide (lineField line = some f)).getLast? with
      | some line => lineValue h f line
      | none => info.get f := by
  induction lines generalizing info with
  | nil => rfl
  | cons l ls ih =>
    rw [List.foldl_cons, ih, parseMediaLine_get]
    by_cases hl : lineField l = some f
    · rw [List.filter_cons_of_pos (by simpa using hl), List.getLast?_cons]
      cases (ls.filter fun line => decide (lineField line = some f)).getLast? <;> simp [hl]
    · rw [List.filter_cons_of_neg (by simpa using hl)]
      simp [hl]

/-- A string that does not contain `p` lies wholly before the first occurrence of `p`. -/
theorem beforeFirst_of_not_includes (p s : Str) (hs : includes s p = false) :
    beforeFirst p s = s := by
  induction s with
  | nil => rfl
  | cons c cs ih =>
    simp only [includes, Bool.or_eq_false_iff] at hs
    simp [beforeFirst, hs.1, ih hs.2]

/-- A string that starts with `p` contains `p`, and what follows is the text after the
first occurrence. -/
theorem starts_with (p r : Str) (hp : p ≠ []) :
    includes (p ++ r) p = true ∧ afterFirst p (p ++ r) = some r := by
  cases p with
  | nil => exact absurd rfl hp
  | cons x xs =>
    have hpre : (x :: xs).isPrefixOf (x :: xs ++ r) = true := by
      rw [List.isPrefixOf_iff_prefix]
      exact List.prefix_append _ _
    refine ⟨?_, ?_⟩
    · simp only [List.cons_append] at hpre ⊢
      simp [includes, hpre]
    · simp only [List.cons_append] at hpre ⊢
      simp only [afterFirst, hpre, if_true]
      simp

/-- An occurrence of `x :: q` cannot start inside a string that does not contain `x`. -/
theorem includes_append_of_head_not_mem (a v q : Str) (x : CodeUnit) (hx : x ∉ a) :
    includes (a ++ v) (x :: q) = includes v (x :: q) := by
  induction a with
  | nil => rfl
  | cons c cs ih =>
    simp only [List.mem_cons, not_or] at hx
    have hne : (x == c) = false := by simpa using hx.1
    simp [includes, List.isPrefixOf, hne, ih hx.2]

/-- A line of one of the four forms, whose value contains none of the four prefixes,
contains the prefix of its own form and no other. -/
theorem includes_formLine (g f : Field) (v : Str)
    (hv : ∀ f' : Field, includes v f'.label = false) :
    includes (formLine g v) f.label = decide (f = g) := by
  have key : ∀ (a q : Str) (x : CodeUnit), x ∉ a ++ [32] → includes v (x :: q) = false →
      includes (a ++ 32 :: v) (x :: q) = false := by
    intro a q x hx hq
    have h32 : a ++ 32 :: v = (a ++ [32]) ++ v := by simp
    rw [h32, includes_append_of_head_not_mem (a ++ [32]) v q x hx, hq]
  have hc := hv .creator
  have hy := hv .year
  have hg := hv .genre
  have ht := hv .type
  cases g <;> cases f <;>
    first
    | (simp only [decide_True, formLine]; exact (starts_with _ _ (label_ne_nil _)).1)
    | (simp only [formLine, reduceCtorEq, decide_False]
       first
       | exact key _ _ _ (by decide) hc
       | exact key _ _ _ (by decide) hy
       | exact key _ _ _ (by decide) hg
       | exact key _ _ _ (by decide) ht)

/-- A line of one of the four forms is read for the field of its form. -/
theorem lineField_formLine (g : Field) (v : Str)
    (hv : ∀ f' : Field, includes v f'.label = false) : lineField (formLine g v) = some g := by
  unfold lineField
  simp only [List.find?, includes_formLine g _ v hv]
  cases g <;> simp

/-- Trimming removes a leading space. -/
theorem trim_space_cons (v : Str) : trim (32 :: v) = trim v := by
  unfold trim trimStart
  rw [List.dropWhile_cons, if_pos (by decide)]

/-- The value read from a line of one of the four forms is the trimmed text after the
prefix, lower-cased for the type. -/
theorem lineValue_formLine (h : Host) (g : Field) (v : Str)
    (hv : ∀ f' : Field, includes v f'.label = false) :
    lineValue h g (formLine g v) = some (g.finish h v) := by
  have hnot : includes (32 :: v) g.label = false := by
    have := hv g
    cases g <;> simpa [includes, Field.label, List.isPrefixOf, lit] using this
  unfold lineValue formLine
  rw [(starts_with g.label (32 :: v) (label_ne_nil g)).2, Option.map_some',
    beforeFirst_of_not_includes _ _ hnot]
  cases g <;> simp [Field.finish, trim_space_cons]

/-- Splitting a text made of lines without line feeds gives the lines back. -/
theorem split_joinWith (l : Str) (ls : List Str) (hl : ∀ x ∈ l :: ls, NL ∉ x) :
    split (joinWith [NL] (l :: ls)) [NL] = l :: ls := by
  induction ls generalizing l with
  | nil => exact split_nl_single l (hl l (List.mem_cons_self _ _))
  | cons m ms ih =>
    have h1 : NL ∉ l := hl l (List.mem_cons_self _ _)
    have h2 : ∀ x ∈ m :: ms, NL ∉ x := fun x hx => hl x (List.mem_cons_of_mem _ hx)
    have : joinWith [NL] (l :: m :: ms) = l ++ NL :: joinWith [NL] (m :: ms) := by
      simp [joinWith]
    rw [this, split_nl_append _ _ h1, ih m h2]

/-- No prefix and no form line holds a line feed. -/
theorem formLine_no_nl (g : Field) (v : Str) (hv : NL ∉ v) : NL ∉ formLine g v := by
  unfold formLine
  intro hmem
  rcases List.mem_append.mp hmem with h | h
  · revert h
    cases g <;> decide
  · rcases List.mem_cons.mp h with h | h
    · exact absurd h (by decide)
    · exact hv h

/-- Among form lines with distinct fields, the last line read for a field is the line of
that field, if there is one. -/
theorem getLast_filter_formLines (h : Host) (f : Field) (ls : List (Field × Str))
    (hnd : (ls.map Prod.fst).Nodup)
    (hv : ∀ fv ∈ ls, ∀ f' : Field, includes fv.2 f'.label = false) :
    (((ls.map fun fv => formLine fv.1 fv.2).filter fun line =>
        decide (lineField line = some f)).getLast?).bind (lineValue h f) =
      (ls.lookup f).map (f.finish h) := by
  induction ls with
  | nil => rfl
  | cons fv rest ih =>
    obtain ⟨g, v⟩ := fv
    have hvg := hv (g, v) (List.mem_cons_self _ _)
    have hrest : ∀ fv ∈ rest, ∀ f' : Field, includes fv.2 f'.label = false :=
      fun fv hfv => hv fv (List.mem_cons_of_mem _ hfv)
    simp only [List.map_cons, List.nodup_cons] at hnd
    have ih' := ih hnd.2 hrest
    simp only [List.map_cons]
    by_cases hgf : g = f
    · subst hgf
      have hnil : ((rest.map fun fv => formLine fv.1 fv.2).filter fun line =>
          decide (lineField line = some g)) = [] := by
        rw [List.filter_eq_nil_iff]
        intro line hline
        obtain ⟨fv, hfv, rfl⟩ := List.mem_map.mp hline
        rw [lineField_formLine fv.1 fv.2 (hrest fv hfv)]
        have hne : fv.1 ≠ g := fun e => hnd.1 (e ▸ List.mem_map_of_mem Prod.fst hfv)
        simpa using hne
      rw [List.filter_cons_of_pos (by simp [lineField_formLine g v hvg]), hnil]
      simp [List.lookup, lineValue_formLine h g v hvg]
    · rw [List.filter_cons_of_neg (by simp [lineField_formLine g v hvg, hgf])]
      have hl : List.lookup f ((g, v) :: rest) = rest.lookup f := by
        have : (f == g) = false := by simpa using fun e => hgf e.symm
        simp [List.lookup, this]
      rw [hl, ih']

/-- The parsed object is determined by its four fields. -/
theorem MediaInfo.eq_of_get (a b : MediaInfo) (hab : ∀ f : Field, a.get f = b.get f) : a = b := by
  have h1 := hab .creator
  have h2 := hab .year
  have h3 := hab .genre
  have h4 := hab .type
  cases a
  cases b
  simp only [MediaInfo.get] at h1 h2 h3 h4
  simp [h1, h2, h3, h4]

/-- C4: for every text made of lines "Creator: c", "Year: y", "Genre: g", "Type: t", each
form used at most once, whose values hold no line feed and none of the four prefixes,
`parseMediaInfo` returns the trimmed values of the forms present, the type lower-cased,
and leaves the fields of the other forms absent; in particular the four-line text of the
specification yields Jane Doe, 2001, Drama, movie. -/
theorem parseMediaInfo_form_lines (h : Host) (lines : List (Field × Str))
    (hnd : (lines.map Prod.fst).Nodup)
    (hv : ∀ fv ∈ lines, NL ∉ fv.2 ∧ ∀ f : Field, includes fv.2 f.label = false) :
    parseMediaInfo h (formText lines) =
        { creator := (lines.lookup .creator).map trim
          releaseDate := (lines.lookup .year).map trim
          genre := (lines.lookup .genre).map trim
          type := (lines.lookup .type).map fun t => h.toLowerCase (trim t) } ∧
    parseMediaInfo refHost (lit "Creator: Jane Doe\nYear: 2001\nGenre: Drama\nType: Movie") =
        { creator := some (lit "Jane Doe"), releaseDate := some (lit "2001")
          genre := some (lit "Drama"), type := some (lit "movie") } := by
  refine ⟨?_, by decide⟩
  apply MediaInfo.eq_of_get
  intro f
  have hget : (parseMediaInfo h (formText lines)).get f = (lines.lookup f).map (f.finish h) := by
    unfold parseMediaInfo
    rw [foldl_parseMediaLine_get]
    cases lines with
    | nil =>
      have : split (formText []) [NL] = [[]] := rfl
      rw [this]
      have hnone : lineField [] = none := by decide
      simp [hnone, MediaInfo.get]
      cases f <;> rfl
    | cons fv rest =>
      have hsplit : split (formText (fv :: rest)) [NL] =
          (fv :: rest).map fun fv => formLine fv.1 fv.2 := by
        unfold formText
        rw [List.map_cons]
        apply split_joinWith
        intro x hx
        rw [← List.map_cons (fun fv : Field × Str => formLine fv.1 fv.2)] at hx
        obtain ⟨y, hy, rfl⟩ := List.mem_map.mp hx
        exact formLine_no_nl y.1 y.2 (hv y hy).1
      rw [hsplit]
      have hb := getLast_filter_formLines h f (fv :: rest) hnd (fun fv hfv => (hv fv hfv).2)
      rw [← hb]
      cases ((List.map (fun fv => formLine fv.1 fv.2) (fv :: rest)).filter fun line =>
          decide (lineField line = some f)).getLast? with
      | none => cases f <;> rfl
      | some x => rfl
  rw [hget]
  cases f <;> simp [MediaInfo.get, Field.finish] <;> rfl

/-- Witness of C4: the two-line text "Type: Book\nCreator: Frank Herbert". -/
theorem parseMediaInfo_form_lines_witness :
    parseMediaInfo refHost (formText [(.type, lit "Book"), (.creator, lit "Frank Herbert")]) =
      { creator := some (lit "Frank Herbert"), type := some (lit "book") } :=
  (parseMediaInfo_form_lines refHost [(.type, lit "Book"), (.creator, lit "Frank Herbert")]
    (by decide) (by decide)).1

/-- C9, as stated, fails: when "Creator:" stands on two lines the last line decides, when
it stands twice on one line the value ends at the second occurrence, and on a line that
also holds "Year:" the year is not read. -/
theorem parseMediaInfo_not_first_occurrence :
    ((parseMediaInfo refHost (lit "Creator: A\nCreator: B")).get .creator = some (lit "B") ∧
      firstOccurrenceValue refHost .creator (lit "Creator: A\nCreator: B") = some (lit "A")) ∧
    ((parseMediaInfo refHost (lit "Creator: A Creator: B")).get .creator = some (lit "A") ∧
      firstOccurrenceValue refHost .creator (lit "Creator: A Creator: B") =
        some (lit "A Creator: B")) ∧
    ((parseMediaInfo refHost (lit "Creator: A Year: 1999")).get .year = none ∧
      firstOccurrenceValue refHost .year (lit "Creator: A Year: 1999") = some (lit "1999")) := by
  decide

/-- C9, amended: for every text, a field is decided by the last line read for its prefix,
a line holding the prefix and none of the prefixes tested before it in the order
`Creator:`, `Year:`, `Genre:`, `Type:`; its value is the text between the first occurrence
of the prefix on that line and the next one, or the end of the line, trimmed and, for
the type, lower-cased; the field is absent when no line is read for it. -/
theorem parseMediaInfo_last_line (h : Host) (text : Str) (f : Field) :
    (parseMediaInfo h text).get f =
      (((split text [NL]).filter fun line => decide (lineField line = some f)).getLast?).bind
        (lineValue h f) := by
  unfold parseMediaInfo
  rw [foldl_parseMediaLine_get]
  cases ((split text [NL]).filter fun line => decide (lineField line = some f)).getLast? with
  | none => cases f <;> rfl
  | some x => rfl

/-- A successful outbound call that generated the string `g` returns `g` as a string
value, also when `g` is empty. -/
theorem callHuggingFaceAPI_text (fetch : Str → Nat → FetchResult) (prompt : Str) (n status : Nat)
    (g : Str) (hok : fetch prompt n = .response true status (some (.str g))) :
    callHuggingFaceAPI fetch prompt n = .ok (.str g) := by
  unfold callHuggingFaceAPI
  rw [hok]
  cases g <;> simp [JSVal.truthy]

/-- C11: when the outbound call of `/api/generate-insights` succeeds with generated text
`g`, the response is a success response whose `recommendation` is the fallback insight
of the request body if `g` trimmed is empty or has fewer than 10 code units, and `g`
trimmed otherwise. -/
theorem generateInsights_success (h : Host) (fetch : Str → Nat → FetchResult)
    (b : InsightsRequest) (status : Nat) (g : Str)
    (hok : fetch (insightsPrompt h b) 80 = .response true status (some (.str g))) :
    (generateInsights h fetch b).response =
      some { status := 200
             body := .insights none
               (if (trim g).isEmpty || decide ((trim g).length < 10) then
                  generateFallbackInsight h b.completionRate b.totalItems b.favoriteGenre
                else trim g) } := by
  have hc := callHuggingFaceAPI_text fetch (insightsPrompt h b) 80 status g hok
  simp [generateInsights, insightsTry, hc, JSVal.asString, bind, Except.bind, pure, Except.pure]

/-- Witness of C11: the generated text "  Nice.  " is too short, so the fallback insight
is sent with status 200. -/
theorem generateInsights_success_witness :
    (generateInsights refHost (fun _ _ => .response true 200 (some (.str (lit "  Nice.  "))))
        ⟨.str (lit "Dune (book, Sci-Fi, complete)"), .num (JSNum.ofInt 1), .str (lit "100.0"),
          .str (lit "9.0"), .str (lit "Sci-Fi")⟩).response =
      some { status := 200
             body := .insights none
               (if (trim (lit "  Nice.  ")).isEmpty ||
                    decide ((trim (lit "  Nice.  ")).length < 10) then
                  generateFallbackInsight refHost (.str (lit "100.0")) (.num (JSNum.ofInt 1))
                    (.str (lit "Sci-Fi"))
                else trim (lit "  Nice.  ")) } :=
  generateInsights_success refHost
    (fun _ _ => .response true 200 (some (.str (lit "  Nice.  "))))
    ⟨.str (lit "Dune (book, Sci-Fi, complete)"), .num (JSNum.ofInt 1), .str (lit "100.0"),
      .str (lit "9.0"), .str (lit "Sci-Fi")⟩ 200 (lit "  Nice.  ") rfl

/-- C14: for a title without a catalog match and a successful outbound call that
generated the text `g`, `/api/autocomplete-media` answers with status 200: with
`parseMediaInfo(g)` when the parsed creator is a non-empty string, and with the message
"No match found" otherwise, whatever other fields were parsed. -/
theorem autocompleteMedia_remote_success (h : Host) (fetch : Str → Nat → FetchResult)
    (title : Str) (status : Nat) (g : Str)
    (hmiss : lookupLocal (h.toLowerCase title) = none)
    (hok : fetch (autocompletePrompt title) 60 = .response true status (some (.str g))) :
    (autocompleteMedia h fetch (.str title)).response =
      some { status := 200
             body :=
               if ((parseMediaInfo h g).creator.getD []).isEmpty then
                 .message (lit "No match found")
               else .media (parseMediaInfo h g) } := by
  have hc := callHuggingFaceAPI_text fetch (autocompletePrompt title) 60 status g hok
  simp only [autocompleteMedia, JSVal.asString, hmiss, autocompleteRemote, hc, bind, Except.bind,
    pure, Except.pure]
  by_cases hcr : ((parseMediaInfo h g).creator.getD []).isEmpty = true <;> simp [hcr]

/-- Witness of C14: the generated text "Genre: Drama\nYear: 2001" has no creator, so the
parsed genre and year are discarded. -/
theorem autocompleteMedia_remote_success_witness :
    (autocompleteMedia refHost
        (fun _ _ => .response true 200 (some (.str (lit "Genre: Drama\nYear: 2001"))))
        (.str (lit "zzzz"))).response =
      some { status := 200
             body :=
               if ((parseMediaInfo refHost (lit "Genre: Drama\nYear: 2001")).creator.getD
                   []).isEmpty then
                 .message (lit "No match found")
               else .media (parseMediaInfo refHost (lit "Genre: Drama\nYear: 2001")) } :=
  autocompleteMedia_remote_success refHost
    (fun _ _ => .response true 200 (some (.str (lit "Genre: Drama\nYear: 2001"))))
    (lit "zzzz") 200 (lit "Genre: Drama\nYear: 2001") (by decide) rfl

/-- Every string contains the empty string. -/
theorem includes_nil (s : Str) : includes s [] = true := by
  cases s <;> simp [includes]

/-- A string contains each of the pieces it is put together from. -/
theorem includes_append_mid (a p b : Str) : includes (a ++ p ++ b) p = true := by
  induction a with
  | nil =>
    cases p with
    | nil => exact includes_nil _
    | cons x xs => exact (starts_with (x :: xs) b (List.cons_ne_nil _ _)).1
  | cons c cs ih =>
    simp only [List.cons_append, includes, Bool.or_eq_true]
    exact Or.inr ih

/-- C15, as stated, fails: with a completion rate of 85.5 the sentence names the genre
and the rate, and the item count 7 occurs nowhere in it. -/
theorem generateFallbackInsight_high_rate_omits_count :
    generateFallbackInsight refHost (.str (lit "85.5")) (.num (JSNum.ofInt 7))
        (.str (lit "Sci-Fi")) =
      lit "Great job! You've completed 85.5% of your collection. Your Sci-Fi taste is showing strong dedication!" ∧
    includes (generateFallbackInsight refHost (.str (lit "85.5")) (.num (JSNum.ofInt 7))
        (.str (lit "Sci-Fi"))) ((JSVal.num (JSNum.ofInt 7)).toStr refHost) = false := by
  decide

/-- C15, amended: the sentence returned by `generateFallbackInsight` contains the text of
`favoriteGenre` in all three branches; it contains the text of `totalItems` in the two
branches taken when the rate is not above 80, and the text of `completionRate` in the
branch taken when the rate is above 80. -/
theorem generateFallbackInsight_references (h : Host)
    (completionRate totalItems favoriteGenre : JSVal) :
    includes (generateFallbackInsight h completionRate totalItems favoriteGenre)
        (favoriteGenre.toStr h) = true ∧
    ((parseFloat h completionRate).gt (JSNum.ofInt 80) = false →
      includes (generateFallbackInsight h completionRate totalItems favoriteGenre)
        (totalItems.toStr h) = true) ∧
    ((parseFloat h completionRate).gt (JSNum.ofInt 80) = true →
      includes (generateFallbackInsight h completionRate totalItems favoriteGenre)
        (completionRate.toStr h) = true) := by
  refine ⟨?_, ?_, ?_⟩
  · unfold generateFallbackInsight
    simp only []
    split
    · exact includes_append_mid _ _ _
    · split
      · exact includes_append_mid _ _ _
      · have := includes_append_mid (lit "Your ") (favoriteGenre.toStr h)
          (lit " collection is well-balanced with " ++ totalItems.toStr h ++
            lit " items. Keep exploring new titles!")
        simpa [List.append_assoc] using this
  · intro hgt
    by_cases hlt : (parseFloat h completionRate).lt (JSNum.ofInt 30) = true
    · have hval : generateFallbackInsight h completionRate totalItems favoriteGenre =
          lit "You have a growing collection of " ++ totalItems.toStr h ++
            (lit " items! Consider focusing on completing some " ++ favoriteGenre.toStr h ++
              lit " titles first.") := by
        simp [generateFallbackInsight, hgt, hlt]
      rw [hval]
      exact includes_append_mid _ _ _
    · have hval : generateFallbackInsight h completionRate totalItems favoriteGenre =
          lit "Your " ++ favoriteGenre.toStr h ++ lit " collection is well-balanced with " ++
            totalItems.toStr h ++ lit " items. Keep exploring new titles!" := by
        simp [generateFallbackInsight, hgt, hlt]
      rw [hval]
      exact includes_append_mid _ _ _
  · intro hgt
    have hval : generateFallbackInsight h completionRate totalItems favoriteGenre =
        lit "Great job! You've completed " ++ completionRate.toStr h ++
          (lit "% of your collection. Your " ++ favoriteGenre.toStr h ++
            lit " taste is showing strong dedication!") := by
      simp [generateFallbackInsight, hgt]
    rw [hval]
    exact includes_append_mid _ _ _

/-- Witness of the amended C15: a completion rate of 50.0 and 7 items. -/
theorem generateFallbackInsight_references_witness :
    includes (generateFallbackInsight refHost (.str (lit "50.0")) (.num (JSNum.ofInt 7))
        (.str (lit "Sci-Fi"))) ((JSVal.num (JSNum.ofInt 7)).toStr refHost) = true :=
  (generateFallbackInsight_references refHost (.str (lit "50.0")) (.num (JSNum.ofInt 7))
    (.str (lit "Sci-Fi"))).2.1 (by decide)

/-- C18 fails on the code: for the genre "constructor", a property every object inherits,
no default is substituted and `generateFallbackRecommendations` throws instead of
returning the Sci-Fi movie titles; so it does for the type "constructor". -/
theorem generateFallbackRecommendations_inherited_key :
    generateFallbackRecommendations refHost (.str (lit "constructor")) (.str (lit "movie")) =
      .error .typeError ∧
    generateFallbackRecommendations refHost (.str (lit "Fantasy")) (.str (lit "constructor")) =
      .error .typeError ∧
    defaultedGenre (lit "constructor") = lit "Sci-Fi" ∧
    tableTitles (lit "Sci-Fi") (lit "movie") =
      [lit "Arrival", lit "Ex Machina", lit "Minority Report"] := by
  decide

/-- Away from the property names inherited from `Object.prototype`, the fallback returns
the three titles of the row of the defaulted genre and type, each with the reason built
from the requested genre and type. -/
theorem generateFallbackRecommendations_table (h : Host) (favoriteGenre favoriteType : JSVal)
    (hgp : favoriteGenre.toStr h ∉ objectPrototypeKeys)
    (htp : favoriteType.toStr h ∉ objectPrototypeKeys) :
    generateFallbackRecommendations h favoriteGenre favoriteType =
        .ok ((tableTitles (defaultedGenre (favoriteGenre.toStr h))
            (defaultedType (favoriteType.toStr h))).map fun title =>
          { title := title
            reason := lit "Perfect for " ++ favoriteGenre.toStr h ++ lit " " ++
              favoriteType.toStr h ++ lit " fans" }) ∧
    (tableTitles (defaultedGenre (favoriteGenre.toStr h))
        (defaultedType (favoriteType.toStr h))).length = 3 := by
  have hmovie : ∀ a b c : List Str,
      getProp [(lit "movie", a), (lit "game", b), (lit "book", c)] (lit "movie") = .own a := by
    intro a b c
    simp [getProp, List.lookup]
  have htype : ∀ a b c : List Str,
      (match getProp [(lit "movie", a), (lit "game", b), (lit "book", c)]
          (favoriteType.toStr h) with
        | .missing => getProp [(lit "movie", a), (lit "game", b), (lit "book", c)] (lit "movie")
        | found => found) =
      .own ((List.lookup (defaultedType (favoriteType.toStr h))
        [(lit "movie", a), (lit "game", b), (lit "book", c)]).getD []) := by
    intro a b c
    by_cases t1 : favoriteType.toStr h = lit "movie"
    · rw [t1]; rfl
    · by_cases t2 : favoriteType.toStr h = lit "game"
      · rw [t2]; rfl
      · by_cases t3 : favoriteType.toStr h = lit "book"
        · rw [t3]; rfl
        · have e1 : (favoriteType.toStr h == lit "movie") = false := by simpa using t1
          have e2 : (favoriteType.toStr h == lit "game") = false := by simpa using t2
          have e3 : (favoriteType.toStr h == lit "book") = false := by simpa using t3
          have hd : defaultedType (favoriteType.toStr h) = lit "movie" := by
            simp [defaultedType, t1, t2, t3]
          have hc : objectPrototypeKeys.contains (favoriteType.toStr h) = false := by
            simpa using htp
          rw [hd]
          simp only [getProp, List.lookup, e1, e2, e3, List.contains_eq_any_beq] at hc ⊢
          simp only [hc]
          rfl
  have hgenre :
      (match getProp recommendationTable (favoriteGenre.toStr h) with
        | .missing => getProp recommendationTable (lit "Sci-Fi")
        | found => found) =
      .own ((recommendationTable.lookup (defaultedGenre (favoriteGenre.toStr h))).getD []) := by
    by_cases g1 : favoriteGenre.toStr h = lit "Sci-Fi"
    · rw [g1]; rfl
    · by_cases g2 : favoriteGenre.toStr h = lit "Fantasy"
      · rw [g2]; rfl
      · by_cases g3 : favoriteGenre.toStr h = lit "Action"
        · rw [g3]; rfl
        · have e1 : (favoriteGenre.toStr h == lit "Sci-Fi") = false := by simpa using g1
          have e2 : (favoriteGenre.toStr h == lit "Fantasy") = false := by simpa using g2
          have e3 : (favoriteGenre.toStr h == lit "Action") = false := by simpa using g3
          have hd : defaultedGenre (favoriteGenre.toStr h) = lit "Sci-Fi" := by
            simp [defaultedGenre, g1, g2, g3]
          have hc : objectPrototypeKeys.contains (favoriteGenre.toStr h) = false := by
            simpa using hgp
          rw [hd]
          simp only [getProp, recommendationTable, List.lookup, e1, e2, e3,
            List.contains_eq_any_beq] at hc ⊢
          simp only [hc]
          rfl
  have hrow : ∃ a b c : List Str,
      (recommendationTable.lookup (defaultedGenre (favoriteGenre.toStr h))).getD [] =
        [(lit "movie", a), (lit "game", b), (lit "book", c)] ∧
      a.length = 3 ∧ b.length = 3 ∧ c.length = 3 := by
    unfold defaultedGenre
    split
    · rename_i hmem
      simp only [List.mem_cons, List.mem_singleton, List.not_mem_nil, or_false] at hmem
      rcases hmem with e | e | e <;> rw [e] <;> exact ⟨_, _, _, rfl, rfl, rfl, rfl⟩
    · exact ⟨_, _, _, rfl, rfl, rfl, rfl⟩
  obtain ⟨a, b, c, hrow, la, lb, lc⟩ := hrow
  have hlen : ((List.lookup (defaultedType (favoriteType.toStr h))
      [(lit "movie", a), (lit "game", b), (lit "book", c)]).getD []).length = 3 := by
    unfold defaultedType
    split
    · rename_i hmem
      simp only [List.mem_cons, List.mem_singleton, List.not_mem_nil, or_false] at hmem
      rcases hmem with e | e | e <;> rw [e]
      · exact la
      · exact lb
      · exact lc
    · exact la
  have htitles : tableTitles (defaultedGenre (favoriteGenre.toStr h))
      (defaultedType (favoriteType.toStr h)) =
      (List.lookup (defaultedType (favoriteType.toStr h))
        [(lit "movie", a), (lit "game", b), (lit "book", c)]).getD [] := by
    unfold tableTitles
    cases hl : recommendationTable.lookup (defaultedGenre (favoriteGenre.toStr h)) with
    | none => rw [hl] at hrow; exact absurd hrow (by simp)
    | some row =>
      rw [hl] at hrow
      simp only [Option.getD_some] at hrow
      rw [hrow]
      rfl
  refine ⟨?_, by rw [htitles]; exact hlen⟩
  unfold generateFallbackRecommendations
  simp only [hgenre, hrow, htype, htitles]
  rw [List.take_of_length_le (by rw [hlen])]

/-- A pair is absent from the fallback table exactly when its genre is none of the three
genres or its type none of the three types. -/
theorem inFallbackTable_false_iff (genre type : Str) :
    inFallbackTable genre type = false ↔
      (genre ∉ [lit "Sci-Fi", lit "Fantasy", lit "Action"] ∨
        type ∉ [lit "movie", lit "game", lit "book"]) := by
  have hrow : ∀ a b c : List Str,
      ((List.lookup type [(lit "movie", a), (lit "game", b), (lit "book", c)]).isSome = false ↔
        type ∉ [lit "movie", lit "game", lit "book"]) := by
    intro a b c
    have d1 : (lit "game" == lit "movie") = false := by decide
    have d2 : (lit "book" == lit "movie") = false := by decide
    have d3 : (lit "book" == lit "game") = false := by decide
    have m1 : lit "movie" ∈ [lit "movie", lit "game", lit "book"] := by decide
    have m2 : lit "game" ∈ [lit "movie", lit "game", lit "book"] := by decide
    have m3 : lit "book" ∈ [lit "movie", lit "game", lit "book"] := by decide
    by_cases t1 : type = lit "movie"
    · rw [t1]
      simp only [List.lookup, beq_self_eq_true, Option.isSome_some, m1, not_true_eq_false]
      simp
    · by_cases t2 : type = lit "game"
      · rw [t2]
        simp only [List.lookup, d1, beq_self_eq_true, Option.isSome_some, m2, not_true_eq_false]
        simp
      · by_cases t3 : type = lit "book"
        · rw [t3]
          simp only [List.lookup, d2, d3, beq_self_eq_true, Option.isSome_some, m3,
            not_true_eq_false]
          simp
        · have e1 : (type == lit "movie") = false := by simpa using t1
          have e2 : (type == lit "game") = false := by simpa using t2
          have e3 : (type == lit "book") = false := by simpa using t3
          simp [List.lookup, e1, e2, e3, t1, t2, t3]
  by_cases g1 : genre = lit "Sci-Fi"
  · rw [g1]
    have : lit "Sci-Fi" ∈ [lit "Sci-Fi", lit "Fantasy", lit "Action"] := by decide
    simp only [this, not_true_eq_false, false_or]
    exact hrow _ _ _
  · by_cases g2 : genre = lit "Fantasy"
    · rw [g2]
      have : lit "Fantasy" ∈ [lit "Sci-Fi", lit "Fantasy", lit "Action"] := by decide
      simp only [this, not_true_eq_false, false_or]
      exact hrow _ _ _
    · by_cases g3 : genre = lit "Action"
      · rw [g3]
        have : lit "Action" ∈ [lit "Sci-Fi", lit "Fantasy", lit "Action"] := by decide
        simp only [this, not_true_eq_false, false_or]
        exact hrow _ _ _
      · have e1 : (genre == lit "Sci-Fi") = false := by simpa using g1
        have e2 : (genre == lit "Fantasy") = false := by simpa using g2
        have e3 : (genre == lit "Action") = false := by simpa using g3
        simp [inFallbackTable, recommendationTable, List.lookup, e1, e2, e3, g1, g2, g3]

/-- C6, amended: for every pair of a genre and a type, neither naming a property
inherited from `Object.prototype`, and so for every such pair that is absent from the
fallback table, the genre and the type are defaulted one by one and the titles returned
are the row of the defaulted genre and type; they are "Arrival", "Ex Machina", "Minority
Report" exactly when the genre is neither Fantasy nor Action and the type is neither
game nor book; a pair is absent from the table when its genre is none of the three
genres or its type none of the three types. -/
theorem fallback_absent_pair_defaults (h : Host) (favoriteGenre favoriteType : JSVal)
    (hgp : favoriteGenre.toStr h ∉ objectPrototypeKeys)
    (htp : favoriteType.toStr h ∉ objectPrototypeKeys) :
    (generateFallbackRecommendations h favoriteGenre favoriteType).map
        (List.map RecItem.title) =
      .ok (tableTitles (defaultedGenre (favoriteGenre.toStr h))
        (defaultedType (favoriteType.toStr h))) ∧
    ((generateFallbackRecommendations h favoriteGenre favoriteType).map
        (List.map RecItem.title) =
      .ok [lit "Arrival", lit "Ex Machina", lit "Minority Report"] ↔
      (favoriteGenre.toStr h ∉ [lit "Fantasy", lit "Action"] ∧
        favoriteType.toStr h ∉ [lit "game", lit "book"])) ∧
    (inFallbackTable (favoriteGenre.toStr h) (favoriteType.toStr h) = false ↔
      (favoriteGenre.toStr h ∉ [lit "Sci-Fi", lit "Fantasy", lit "Action"] ∨
        favoriteType.toStr h ∉ [lit "movie", lit "game", lit "book"])) := by
  have htab := (generateFallbackRecommendations_table h favoriteGenre favoriteType hgp htp).1
  have hmap : (generateFallbackRecommendations h favoriteGenre favoriteType).map
      (List.map RecItem.title) =
      .ok (tableTitles (defaultedGenre (favoriteGenre.toStr h))
        (defaultedType (favoriteType.toStr h))) := by
    rw [htab]
    simp [Except.map, List.map_map, Function.comp_def]
  refine ⟨hmap, ?_, inFallbackTable_false_iff _ _⟩
  rw [hmap]
  have key : ∀ g ∈ [lit "Sci-Fi", lit "Fantasy", lit "Action"],
      ∀ t ∈ [lit "movie", lit "game", lit "book"],
      (tableTitles g t = [lit "Arrival", lit "Ex Machina", lit "Minority Report"] ↔
        (g = lit "Sci-Fi" ∧ t = lit "movie")) := by
    decide
  have hg : defaultedGenre (favoriteGenre.toStr h) ∈ [lit "Sci-Fi", lit "Fantasy", lit "Action"] ∧
      (defaultedGenre (favoriteGenre.toStr h) = lit "Sci-Fi" ↔
        favoriteGenre.toStr h ∉ [lit "Fantasy", lit "Action"]) := by
    unfold defaultedGenre
    split
    · rename_i hmem
      refine ⟨hmem, ?_⟩
      simp only [List.mem_cons, List.mem_singleton, List.not_mem_nil, or_false] at hmem
      rcases hmem with e | e | e <;> rw [e] <;> decide
    · rename_i hmem
      refine ⟨by decide, ?_⟩
      simp only [List.mem_cons, List.mem_singleton, List.not_mem_nil, or_false, not_or] at hmem ⊢
      exact ⟨fun _ => ⟨hmem.2.1, hmem.2.2⟩, fun _ => trivial⟩
  have ht : defaultedType (favoriteType.toStr h) ∈ [lit "movie", lit "game", lit "book"] ∧
      (defaultedType (favoriteType.toStr h) = lit "movie" ↔
        favoriteType.toStr h ∉ [lit "game", lit "book"]) := by
    unfold defaultedType
    split
    · rename_i hmem
      refine ⟨hmem, ?_⟩
      simp only [List.mem_cons, List.mem_singleton, List.not_mem_nil, or_false] at hmem
      rcases hmem with e | e | e <;> rw [e] <;> decide
    · rename_i hmem
      refine ⟨by decide, ?_⟩
      simp only [List.mem_cons, List.mem_singleton, List.not_mem_nil, or_false, not_or] at hmem ⊢
      exact ⟨fun _ => ⟨hmem.2.1, hmem.2.2⟩, fun _ => trivial⟩
  rw [Except.ok.injEq, key _ hg.1 _ ht.1, hg.2, ht.2]

/-- Witness of the amended C6: ("Horror", "movie") is absent from the table and gets the
Sci-Fi movie titles. -/
theorem fallback_absent_pair_defaults_witness :
    (generateFallbackRecommendations refHost (.str (lit "Horror")) (.str (lit "movie"))).map
        (List.map RecItem.title) =
      .ok [lit "Arrival", lit "Ex Machina", lit "Minority Report"] :=
  (fallback_absent_pair_defaults refHost (.str (lit "Horror")) (.str (lit "movie"))
    (by decide) (by decide)).2.1.mpr ⟨by decide, by decide⟩

/-- C12 fails on the code: for the genre "constructor" and a failed outbound call, the
fallback throws inside the `catch` block and the handler sends no response at all, where
the claim has a 500 response with the fallback recommendations. -/
theorem generateRecommendations_no_response :
    (generateRecommendations refHost (fun _ _ => .response false 503 none)
        ⟨.str (lit "constructor"), .str (lit "movie"), some []⟩).response = none ∧
    (generateRecommendations refHost (fun _ _ => .response true 200 (some (.str [])))
        ⟨.str (lit "constructor"), .str (lit "movie"), some []⟩).response = none := by
  decide

/-- Whenever the fallback itself returns, the recommendations handler answers as
follows: with status 500 and the fallback list when the outbound call failed, and with
status 200 otherwise, carrying the parsed list when the call returned a text whose parse
is not empty and the fallback list in every other case. -/
theorem generateRecommendations_response (h : Host) (fetch : Str → Nat → FetchResult)
    (b : RecommendationsRequest) (items : List JSVal) (recs : List RecItem)
    (hitems : b.topRatedItems = some items)
    (hfb : generateFallbackRecommendations h b.favoriteGenre b.favoriteType = .ok recs) :
    (generateRecommendations h fetch b).response =
      some (match callHuggingFaceAPI fetch (recommendationsPrompt h b items) 120 with
        | .error _ =>
          { status := 500
            body := .recommendations (some (lit "Failed to generate recommendations")) recs }
        | .ok (.str g) =>
          { status := 200
            body := .recommendations none
              (if (parseRecommendations g (b.favoriteGenre.toStr h)
                    (b.favoriteType.toStr h)).length = 0 then recs
               else parseRecommendations g (b.favoriteGenre.toStr h) (b.favoriteType.toStr h)) }
        | .ok _ => { status := 200, body := .recommendations none recs }) := by
  unfold generateRecommendations recommendationsTry
  simp only [hitems, hfb, bind, Except.bind, pure, Except.pure]
  cases hc : callHuggingFaceAPI fetch (recommendationsPrompt h b items) 120 with
  | error e => rfl
  | ok v =>
    cases v with
    | str g =>
      by_cases hp : (parseRecommendations g (b.favoriteGenre.toStr h)
          (b.favoriteType.toStr h)).length = 0
      · simp [hp]
      · simp [hp]
    | undefined => simp
    | null => simp
    | bool x => simp
    | num x => simp

/-- C13, as stated, fails: for the title "dune 1984" the keys "dune" and "1984" both
match; the loop visits "1984", an integer-like property name, before "dune" and answers
with the entry of George Orwell, while the first match in the order of the source is the
entry of Frank Herbert. -/
theorem autocompleteMedia_index_key_first :
    (autocompleteMedia refHost (fun _ _ => .networkError) (.str (lit "dune 1984"))).response =
      some { status := 200, body := .media (entry "George Orwell" "1949" "Dystopian" "book") } ∧
    (sourceOrderEntries.find? (keyMatches (asciiLower (lit "dune 1984")))).map Prod.snd =
      some (entry "Frank Herbert" "1965" "Sci-Fi" "book") := by
  decide

/-- C13, amended: the keys are visited in the order movies, games, books, each category
as listed in the source except that in books "1984" comes before "dune" and "the
hobbit"; when some key matches the lower-cased title, the response is the entry of the
first such key in that order and no outbound call is made; an outbound call is made
exactly when no key matches. -/
theorem autocompleteMedia_local_first (h : Host) (fetch : Str → Nat → FetchResult)
    (title : Str) :
    catalogEntries.map Prod.fst =
      [lit "the matrix", lit "inception", lit "interstellar", lit "blade runner",
        lit "the godfather", lit "the witcher 3", lit "cyberpunk 2077",
        lit "red dead redemption 2", lit "the last of us", lit "1984", lit "dune",
        lit "the hobbit"] ∧
    (∀ kv, catalogEntries.find? (keyMatches (h.toLowerCase title)) = some kv →
      autocompleteMedia h fetch (.str title) =
        { response := some { status := 200, body := .media kv.2 }, calls := [] }) ∧
    ((autocompleteMedia h fetch (.str title)).calls ≠ [] ↔
      ∀ kv ∈ catalogEntries, keyMatches (h.toLowerCase title) kv = false) := by
  have hl : lookupLocal (h.toLowerCase title) =
      (catalogEntries.find? (keyMatches (h.toLowerCase title))).map Prod.snd := rfl
  refine ⟨by decide, ?_, ?_⟩
  · intro kv hkv
    simp [autocompleteMedia, JSVal.asString, hl, hkv]
  · cases hf : catalogEntries.find? (keyMatches (h.toLowerCase title)) with
    | none =>
      have hall := List.find?_eq_none.mp hf
      simp only [autocompleteMedia, JSVal.asString, hl, hf, Option.map_none']
      constructor
      · intro _ kv hkv
        simpa using hall kv hkv
      · intro _
        simp
    | some kv =>
      have hm := List.find?_some hf
      have hmem := List.mem_of_find?_eq_some hf
      simp only [autocompleteMedia, JSVal.asString, hl, hf, Option.map_some']
      constructor
      · intro hne
        exact absurd rfl hne
      · intro hall
        rw [hall kv hmem] at hm
        exact absurd hm (by simp)

/-- Witness of the amended C13: the title "Dune" matches the key "dune" alone. -/
theorem autocompleteMedia_local_first_witness :
    autocompleteMedia refHost (fun _ _ => .networkError) (.str (lit "Dune")) =
      { response := some
          { status := 200, body := .media (entry "Frank Herbert" "1965" "Sci-Fi" "book") }
        calls := [] } :=
  (autocompleteMedia_local_first refHost (fun _ _ => .networkError) (lit "Dune")).2.1
    (lit "dune", entry "Frank Herbert" "1965" "Sci-Fi" "book") (by decide)

/-- C16: submitting the form while editing the record with id `i` replaces every record
of the list whose id is `i` by the form data carrying the id `i`, and leaves every other
record, the order of the ids and the length of the list unchanged. -/
theorem handleSubmit_edit (now : Nat) (st : ClientState) (editingItem : MediaRecord)
    (hedit : st.editingItem = some editingItem) :
    (handleSubmit now st).media.length = st.media.length ∧
    (handleSubmit now st).media.map MediaRecord.id = st.media.map MediaRecord.id ∧
    (∀ (n : Nat) (item : MediaRecord), st.media[n]? = some item →
      (item.id = editingItem.id →
        (handleSubmit now st).media[n]? =
          some { id := editingItem.id, data := st.formData }) ∧
      (item.id ≠ editingItem.id → (handleSubmit now st).media[n]? = some item)) := by
  have hm : (handleSubmit now st).media = st.media.map fun item =>
      if item.id = editingItem.id then { id := editingItem.id, data := st.formData }
      else item := by
    simp [handleSubmit, hedit]
  refine ⟨by rw [hm, List.length_map], ?_, ?_⟩
  · rw [hm, List.map_map]
    apply List.map_congr_left
    intro item _
    by_cases hi : item.id = editingItem.id <;> simp [hi]
  · intro n item hn
    rw [hm, List.getElem?_map, hn]
    constructor
    · intro hi
      simp [hi]
    · intro hi
      simp [hi]

/-- Witness of C16: a list of three records, the second being edited. -/
theorem handleSubmit_edit_witness :
    (handleSubmit 1000
        { media := [⟨1, emptyForm⟩, ⟨2, emptyForm⟩, ⟨3, emptyForm⟩]
          formData := { emptyForm with title := lit "Dune" }
          showForm := true
          editingItem := some ⟨2, emptyForm⟩ }).media.map MediaRecord.id = [1, 2, 3] :=
  (handleSubmit_edit 1000
    { media := [⟨1, emptyForm⟩, ⟨2, emptyForm⟩, ⟨3, emptyForm⟩]
      formData := { emptyForm with title := lit "Dune" }
      showForm := true
      editingItem := some ⟨2, emptyForm⟩ } ⟨2, emptyForm⟩ rfl).2.1

/-- C19: for every non-empty list, the average rating is the sum of the parsed ratings,
a record with an empty rating contributing 0, divided by the number of all records and
written with one decimal; the sample records rated 9.5, 9.0 and 9.8 give "9.4", and an
unrated record beside one rated 9.0 gives "4.5". The sum, the quotient and the rounding
are those of binary64 numbers; `parseFloat("0")` is 0 on the host. -/
theorem avgRating_counts_unrated (h : Host) (mediaList : List MediaRecord)
    (hne : mediaList ≠ [])
    (hzero : h.parseFloatStr (h.numToStr (JSNum.ofInt 0)) = JSNum.ofInt 0) :
    avgRating h mediaList =
        toFixed1 h
          (((mediaList.map fun item =>
              if item.data.rating = [] then JSNum.ofInt 0
              else h.parseFloatStr item.data.rating).foldl JSNum.add (JSNum.ofInt 0)).divNat
            mediaList.length) ∧
    0 < mediaList.length ∧
    avgRating refHost sampleData = lit "9.4" ∧
    avgRating refHost
        [⟨1, { emptyForm with rating := lit "9.0" }⟩, ⟨2, emptyForm⟩] = lit "4.5" := by
  refine ⟨?_, List.length_pos.mpr hne, by decide, by decide⟩
  have hval : ∀ item : MediaRecord, ratingValue h item =
      if item.data.rating = [] then JSNum.ofInt 0 else h.parseFloatStr item.data.rating := by
    intro item
    unfold ratingValue parseFloat
    by_cases hr : item.data.rating = []
    · simp [hr, JSVal.toStr, hzero]
    · have : item.data.rating.isEmpty = false := by
        cases hd : item.data.rating with
        | nil => exact absurd hd hr
        | cons x xs => rfl
      simp [hr, this, JSVal.toStr]
  unfold avgRating
  rw [List.foldl_map]
  simp only [hval]

/-- Witness of C19: the sample records under the reference host. -/
theorem avgRating_counts_unrated_witness :
    avgRating refHost sampleData =
      toFixed1 refHost
        (((sampleData.map fun item =>
            if item.data.rating = [] then JSNum.ofInt 0
            else refHost.parseFloatStr item.data.rating).foldl JSNum.add
              (JSNum.ofInt 0)).divNat sampleData.length) :=
  (avgRating_counts_unrated refHost sampleData (by decide) (by decide)).1

/-- The distinct values of a list are its values. -/
theorem mem_firstAppearances (values : List Str) :
    ∀ v : Str, v ∈ firstAppearances values ↔ v ∈ values := by
  unfold firstAppearances
  induction values using List.reverseRecOn with
  | nil => simp
  | append_singleton p x ih =>
    intro v
    rw [List.foldl_append, List.foldl_cons, List.foldl_nil]
    by_cases hx : x ∈ List.foldl (fun seen v => if v ∈ seen then seen else seen ++ [v]) [] p
    · rw [if_pos hx, List.mem_append, List.mem_singleton, ih v]
      constructor
      · exact Or.inl
      · rintro (h | h)
        · exact h
        · rw [h]
          exact (ih x).mp hx
    · rw [if_neg hx, List.mem_append, List.mem_append, ih v]

/-- The count update on a count object whose counts are given by a function. -/
theorem bumpCount_map (ks : List Str) (f : Str → Nat) (v : Str) :
    bumpCount (ks.map fun k => (k, f k)) v =
      if v ∈ ks then ks.map fun k => (k, if k = v then f k + 1 else f k)
      else (ks.map fun k => (k, f k)) ++ [(v, 1)] := by
  unfold bumpCount
  by_cases hv : v ∈ ks
  · have : ((ks.map fun k => (k, f k)).any fun kv => kv.1 == v) = true := by
      rw [List.any_eq_true]
      exact ⟨(v, f v), List.mem_map.mpr ⟨v, hv, rfl⟩, by simp⟩
    rw [if_pos this, if_pos hv, List.map_map]
    apply List.map_congr_left
    intro k _
    by_cases hk : k = v <;> simp [hk]
  · have : ((ks.map fun k => (k, f k)).any fun kv => kv.1 == v) = false := by
      rw [List.any_eq_false]
      intro kv hkv
      obtain ⟨k, hk, rfl⟩ := List.mem_map.mp hkv
      simp only [beq_iff_eq]
      intro h
      exact hv (h ▸ hk)
    rw [this, if_neg hv]
    simp

/-- The count object built by the first `reduce`: each distinct value, in order of first
appearance, with its number of occurrences. -/
theorem foldl_bumpCount (values : List Str) :
    values.foldl bumpCount [] =
      (firstAppearances values).map fun k => (k, values.count k) := by
  induction values using List.reverseRecOn with
  | nil => rfl
  | append_singleton p x ih =>
    have hfa : firstAppearances (p ++ [x]) =
        if x ∈ firstAppearances p then firstAppearances p else firstAppearances p ++ [x] := by
      unfold firstAppearances
      rw [List.foldl_append, List.foldl_cons, List.foldl_nil]
    rw [List.foldl_append, List.foldl_cons, List.foldl_nil, ih, bumpCount_map, hfa]
    by_cases hx : x ∈ firstAppearances p
    · rw [if_pos hx, if_pos hx]
      apply List.map_congr_left
      intro k _
      by_cases hk : k = x
      · simp [hk, List.count_append]
      · simp [hk, List.count_append, List.count_singleton, Ne.symm hk]
    · have hxp : x ∉ p := fun h => hx ((mem_firstAppearances p x).mpr h)
      rw [if_neg hx, if_neg hx, List.map_append]
      congr 1
      · apply List.map_congr_left
        intro k hk
        have hkx : k ≠ x := fun h => hx (h ▸ hk)
        simp [List.count_append, List.count_singleton, Ne.symm hkx]
      · simp [List.count_append, List.count_eq_zero_of_not_mem hxp]

/-- Inserting an entry at its numeric position keeps the entries. -/
theorem insertIndexKey_perm {α : Type} (e : Str × α) (l : List (Str × α)) :
    (insertIndexKey e l).Perm (e :: l) := by
  induction l with
  | nil => exact List.Perm.refl _
  | cons x xs ih =>
    unfold insertIndexKey
    split
    · exact List.Perm.refl _
    · exact (List.Perm.cons x ih).trans (List.Perm.swap e x xs)

/-- `Object.entries` enumerates every own property exactly once. -/
theorem objectEntries_perm {α : Type} (l : List (Str × α)) : (objectEntries l).Perm l := by
  have hfold : ∀ m : List (Str × α), (m.foldr insertIndexKey []).Perm m := by
    intro m
    induction m with
    | nil => exact List.Perm.refl _
    | cons a m ih => exact (insertIndexKey_perm a _).trans (List.Perm.cons a ih)
  unfold objectEntries
  exact (List.Perm.append_right _ (hfold _)).trans (List.filter_append_perm _ l)

/-- When `count[a] > count[b]` holds, the count of `b` is below the count of `a`. -/
theorem countGt_true (cnt : List (Str × Nat)) (a b : Str) (hgt : countGt cnt a b = true) :
    (cnt.lookup b).getD 0 < (cnt.lookup a).getD 0 := by
  unfold countGt at hgt
  cases ha : cnt.lookup a <;> cases hb : cnt.lookup b <;> simp_all

/-- When `count[a] > count[b]` fails for a key `b` that has a count, the count of `a` is
at most the count of `b`. -/
theorem countGt_false (cnt : List (Str × Nat)) (a b : Str) (hgt : countGt cnt a b = false)
    (hb : ∃ n, cnt.lookup b = some n) :
    (cnt.lookup a).getD 0 ≤ (cnt.lookup b).getD 0 := by
  obtain ⟨n, hn⟩ := hb
  unfold countGt at hgt
  cases ha : cnt.lookup a <;> simp_all

/-- The second `reduce`: either the result splits the keys into keys with counts at most
its own before it and keys with smaller counts after it, or it is still the initial
value, whose count is above the count of every key. -/
theorem reduce_last_max (cnt : List (Str × Nat)) (a0 : Str) (ks : List Str)
    (hks : ∀ k ∈ ks, ∃ n, cnt.lookup k = some n) :
    (∃ pre post,
        ks = pre ++ ks.foldl (fun a b => if countGt cnt a b then a else b) a0 :: post ∧
        (∀ k ∈ pre, (cnt.lookup k).getD 0 ≤
          (cnt.lookup (ks.foldl (fun a b => if countGt cnt a b then a else b) a0)).getD 0) ∧
        (∀ k ∈ post, (cnt.lookup k).getD 0 <
          (cnt.lookup (ks.foldl (fun a b => if countGt cnt a b then a else b) a0)).getD 0)) ∨
    (ks.foldl (fun a b => if countGt cnt a b then a else b) a0 = a0 ∧
      ∀ k ∈ ks, countGt cnt a0 k = true) := by
  induction ks using List.reverseRecOn with
  | nil => exact Or.inr ⟨rfl, by simp⟩
  | append_singleton ks b ih =>
    have hb : ∃ n, cnt.lookup b = some n := hks b (by simp)
    have ih' := ih (fun k hk => hks k (by simp [hk]))
    rw [List.foldl_append, List.foldl_cons, List.foldl_nil]
    generalize ks.foldl (fun a b => if countGt cnt a b then a else b) a0 = r at ih' ⊢
    by_cases hgt : countGt cnt r b = true
    · rw [if_pos hgt]
      rcases ih' with ⟨pre, post, hsplit, hpre, hpost⟩ | ⟨hr, hall⟩
      · refine Or.inl ⟨pre, post ++ [b], by rw [hsplit]; simp, hpre, ?_⟩
        intro k hk
        rcases List.mem_append.mp hk with h | h
        · exact hpost k h
        · rw [List.mem_singleton.mp h]
          exact countGt_true cnt r b hgt
      · refine Or.inr ⟨hr, ?_⟩
        intro k hk
        rcases List.mem_append.mp hk with h | h
        · exact hall k h
        · rw [List.mem_singleton.mp h, ← hr]
          exact hgt
    · rw [if_neg hgt]
      have hle := countGt_false cnt r b (by simpa using hgt) hb
      refine Or.inl ⟨ks, [], rfl, ?_, by simp⟩
      intro k hk
      rcases ih' with ⟨pre, post, hsplit, hpre, hpost⟩ | ⟨hr, hall⟩
      · rw [hsplit] at hk
        rcases List.mem_append.mp hk with h | h
        · exact (hpre k h).trans hle
        · rcases List.mem_cons.mp h with h | h
          · rw [h]; exact hle
          · exact (Nat.le_of_lt (hpost k h)).trans hle
      · have := countGt_true cnt a0 k (hall k hk)
        rw [hr] at hle
        omega

/-- Looking a key up in a count object whose counts are given by a function. -/
theorem lookup_map_count (ks : List Str) (f : Str → Nat) (k : Str) :
    (ks.map fun k => (k, f k)).lookup k = if k ∈ ks then some (f k) else none := by
  induction ks with
  | nil => rfl
  | cons x xs ih =>
    by_cases hk : k = x
    · subst hk
      simp [List.lookup]
    · have hne : (k == x) = false := by simpa using hk
      simp only [List.map_cons, List.lookup, hne, ih, List.mem_cons, hk, false_or]

/-- The common body of `getMostCommonGenre` and `getMostCommonType`: on a non-empty list
of values, none of them a property name inherited from `Object.prototype`, the result
splits the enumeration of the keys into keys that occur at most as often before it and
keys that occur less often after it; so it occurs in the list at least as often as any
value. -/
theorem mostCommonOf_last_max (values : List Str) (hne : values ≠ [])
    (hproto : ∀ v ∈ values, v ∉ objectPrototypeKeys) :
    ∃ g pre post, mostCommonOf values = some g ∧ keyOrder values = pre ++ g :: post ∧
      (∀ k ∈ pre, values.count k ≤ values.count g) ∧
      (∀ k ∈ post, values.count k < values.count g) ∧
      g ∈ values ∧ ∀ x, values.count x ≤ values.count g := by
  have hany : values.any objectPrototypeKeys.contains = false := by
    rw [List.any_eq_false]
    intro v hv
    simpa using hproto v hv
  have hlook : ∀ k, ((firstAppearances values).map fun k => (k, values.count k)).lookup k =
      if k ∈ values then some (values.count k) else none := by
    intro k
    rw [lookup_map_count]
    simp only [mem_firstAppearances]
  have hmem : ∀ k, k ∈ keyOrder values ↔ k ∈ values := by
    intro k
    unfold keyOrder
    rw [((objectEntries_perm _).map Prod.fst).mem_iff, List.map_map]
    simp only [Function.comp_def, List.map_id', mem_firstAppearances]
  have hcnt : ∀ k, (((firstAppearances values).map fun k => (k, values.count k)).lookup
      k).getD 0 = values.count k := by
    intro k
    rw [hlook]
    by_cases hk : k ∈ values
    · simp [hk]
    · simp [hk, List.count_eq_zero_of_not_mem hk]
  have hred := reduce_last_max ((firstAppearances values).map fun k => (k, values.count k)) []
    (keyOrder values) (by
      intro k hk
      exact ⟨values.count k, by rw [hlook, if_pos ((hmem k).mp hk)]⟩)
  have hval : mostCommonOf values = some ((keyOrder values).foldl
      (fun a b => if countGt ((firstAppearances values).map fun k => (k, values.count k)) a b
        then a else b) []) := by
    unfold mostCommonOf keyOrder
    rw [hany, foldl_bumpCount]
    rfl
  rcases hred with ⟨pre, post, hsplit, hpre, hpost⟩ | ⟨_, hall⟩
  · generalize (keyOrder values).foldl
      (fun a b => if countGt ((firstAppearances values).map fun k => (k, values.count k)) a b
        then a else b) [] = g at hval hsplit hpre hpost
    simp only [hcnt] at hpre hpost
    have hg : g ∈ values := (hmem g).mp (by rw [hsplit]; simp)
    refine ⟨g, pre, post, hval, hsplit, hpre, hpost, hg, ?_⟩
    intro x
    by_cases hx : x ∈ values
    · have hx2 := (hmem x).mpr hx
      rw [hsplit] at hx2
      rcases List.mem_append.mp hx2 with h | h
      · exact hpre x h
      · rcases List.mem_cons.mp h with h | h
        · rw [h]
        · exact Nat.le_of_lt (hpost x h)
    · rw [List.count_eq_zero_of_not_mem hx]
      exact Nat.zero_le _
  · exfalso
    obtain ⟨v, hv⟩ := List.exists_mem_of_ne_nil values hne
    have h1 := countGt_true _ _ _ (hall v ((hmem v).mpr hv))
    rw [hcnt, hcnt] at h1
    have hnil : ([] : Str) ∈ values := by
      by_contra hn
      rw [List.count_eq_zero_of_not_mem hn] at h1
      omega
    have h2 := countGt_true _ _ _ (hall [] ((hmem []).mpr hnil))
    omega

/-- C17, as stated, fails: the genres "Rock" and "1984" occur once each and "1984" is the
later one in order of first appearance, yet `getMostCommonGenre` returns "Rock", because
the integer-like key "1984" is enumerated first. -/
theorem getMostCommonGenre_index_key :
    getMostCommonGenre
        [⟨1, { emptyForm with genre := lit "Rock" }⟩,
         ⟨2, { emptyForm with genre := lit "1984" }⟩] = some (lit "Rock") ∧
    firstAppearances [lit "Rock", lit "1984"] = [lit "Rock", lit "1984"] ∧
    keyOrder [lit "Rock", lit "1984"] = [lit "1984", lit "Rock"] ∧
    [lit "Rock", lit "1984"].count (lit "Rock") = [lit "Rock", lit "1984"].count (lit "1984") := by
  decide

/-- C17, amended: on the empty list the two functions return "Unknown" and "movie"; on a
non-empty list, none of whose genres (types) is a property name inherited from
`Object.prototype`, the result occurs in the list at least as often as every genre
(type), and among those tied for the maximum it is the last one in the enumeration order
of the keys: order of first appearance, integer-like names first. -/
theorem getMostCommon_last_max (mediaList : List MediaRecord) :
    (mediaList = [] →
      getMostCommonGenre mediaList = some (lit "Unknown") ∧
      getMostCommonType mediaList = some (lit "movie")) ∧
    (mediaList ≠ [] → (∀ item ∈ mediaList, item.data.genre ∉ objectPrototypeKeys) →
      ∃ g pre post, getMostCommonGenre mediaList = some g ∧
        keyOrder (mediaList.map fun item => item.data.genre) = pre ++ g :: post ∧
        (∀ k ∈ pre, (mediaList.map fun item => item.data.genre).count k ≤
          (mediaList.map fun item => item.data.genre).count g) ∧
        (∀ k ∈ post, (mediaList.map fun item => item.data.genre).count k <
          (mediaList.map fun item => item.data.genre).count g) ∧
        g ∈ (mediaList.map fun item => item.data.genre) ∧
        ∀ x, (mediaList.map fun item => item.data.genre).count x ≤
          (mediaList.map fun item => item.data.genre).count g) ∧
    (mediaList ≠ [] → (∀ item ∈ mediaList, item.data.type ∉ objectPrototypeKeys) →
      ∃ t pre post, getMostCommonType mediaList = some t ∧
        keyOrder (mediaList.map fun item => item.data.type) = pre ++ t :: post ∧
        (∀ k ∈ pre, (mediaList.map fun item => item.data.type).count k ≤
          (mediaList.map fun item => item.data.type).count t) ∧
        (∀ k ∈ post, (mediaList.map fun item => item.data.type).count k <
          (mediaList.map fun item => item.data.type).count t) ∧
        t ∈ (mediaList.map fun item => item.data.type) ∧
        ∀ x, (mediaList.map fun item => item.data.type).count x ≤
          (mediaList.map fun item => item.data.type).count t) := by
  refine ⟨?_, ?_, ?_⟩
  · intro h0
    rw [h0]
    exact ⟨rfl, rfl⟩
  · intro hne hproto
    have hlen : ¬ mediaList.length = 0 := fun h => hne (List.length_eq_zero.mp h)
    have := mostCommonOf_last_max (mediaList.map fun item => item.data.genre)
      (by simpa using hne)
      (by
        intro v hv
        obtain ⟨item, hitem, rfl⟩ := List.mem_map.mp hv
        exact hproto item hitem)
    simpa only [getMostCommonGenre, if_neg hlen] using this
  · intro hne hproto
    have hlen : ¬ mediaList.length = 0 := fun h => hne (List.length_eq_zero.mp h)
    have := mostCommonOf_last_max (mediaList.map fun item => item.data.type)
      (by simpa using hne)
      (by
        intro v hv
        obtain ⟨item, hitem, rfl⟩ := List.mem_map.mp hv
        exact hproto item hitem)
    simpa only [getMostCommonType, if_neg hlen] using this

/-- Witness of the amended C17: the empty list, and the three sample records. -/
theorem getMostCommon_last_max_witness :
    (getMostCommonGenre [] = some (lit "Unknown") ∧ getMostCommonType [] = some (lit "movie")) ∧
    ∃ g pre post, getMostCommonGenre sampleData = some g ∧
      keyOrder (sampleData.map fun item => item.data.genre) = pre ++ g :: post ∧
      (∀ k ∈ pre, (sampleData.map fun item => item.data.genre).count k ≤
        (sampleData.map fun item => item.data.genre).count g) ∧
      (∀ k ∈ post, (sampleData.map fun item => item.data.genre).count k <
        (sampleData.map fun item => item.data.genre).count g) ∧
      g ∈ (sampleData.map fun item => item.data.genre) ∧
      ∀ x, (sampleData.map fun item => item.data.genre).count x ≤
        (sampleData.map fun item => item.data.genre).count g :=
  ⟨(getMostCommon_last_max []).1 rfl,
    (getMostCommon_last_max sampleData).2.1 (by decide) (by decide)⟩

end MediaManager
